import Mathlib

/-!
Verification of the query-safety pipeline of the SQLAgent repository.

Two components are embedded:

* the completion-normalization cleanup performed at the end of
  `NLToSQLConverter.translate` (src/nl_to_sql.py, lines 103-155), a pure
  string transformation, embedded over `List Char`;
* `SQLValidator` (src/sql_validator.py): `is_readonly_query`,
  `validate_schema_references` and `validate`.

The validator calls the external `sqlparse` library, which is not part of
the repository; its statement splitting, statement typing and token
classification are modelled from the specification (see the definitions
whose doc comments start with "Modelled from the spec").

Python strings are embedded as `List Char`; the embedding is faithful on
ASCII inputs (Python's `str.upper`/`str.lower`/`str.strip` agree with the
definitions below on ASCII, which covers every string the claims mention).
-/

/-- Conversion from Lean string literals to the `List Char` representation
used throughout this development. -/
def strL (x : String) : List Char := x.data

/-- The single-quote character `'`. -/
def quoteChar : Char := Char.ofNat 39

/-- Whitespace in the sense of Python's `str.strip` (ASCII range):
space, tab, newline, carriage return, vertical tab, form feed. -/
def pyIsSpace (c : Char) : Bool :=
  c = ' ' || c = '\t' || c = '\n' || c = '\r' || c = Char.ofNat 11 || c = Char.ofNat 12

/-- Python's `str.lower` on a single character (ASCII range). -/
def pyToLower (c : Char) : Char :=
  if c = 'A' then 'a' else if c = 'B' then 'b' else if c = 'C' then 'c'
  else if c = 'D' then 'd' else if c = 'E' then 'e' else if c = 'F' then 'f'
  else if c = 'G' then 'g' else if c = 'H' then 'h' else if c = 'I' then 'i'
  else if c = 'J' then 'j' else if c = 'K' then 'k' else if c = 'L' then 'l'
  else if c = 'M' then 'm' else if c = 'N' then 'n' else if c = 'O' then 'o'
  else if c = 'P' then 'p' else if c = 'Q' then 'q' else if c = 'R' then 'r'
  else if c = 'S' then 's' else if c = 'T' then 't' else if c = 'U' then 'u'
  else if c = 'V' then 'v' else if c = 'W' then 'w' else if c = 'X' then 'x'
  else if c = 'Y' then 'y' else if c = 'Z' then 'z' else c

/-- Python's `str.upper` on a single character (ASCII range). -/
def pyToUpper (c : Char) : Char :=
  if c = 'a' then 'A' else if c = 'b' then 'B' else if c = 'c' then 'C'
  else if c = 'd' then 'D' else if c = 'e' then 'E' else if c = 'f' then 'F'
  else if c = 'g' then 'G' else if c = 'h' then 'H' else if c = 'i' then 'I'
  else if c = 'j' then 'J' else if c = 'k' then 'K' else if c = 'l' then 'L'
  else if c = 'm' then 'M' else if c = 'n' then 'N' else if c = 'o' then 'O'
  else if c = 'p' then 'P' else if c = 'q' then 'Q' else if c = 'r' then 'R'
  else if c = 's' then 'S' else if c = 't' then 'T' else if c = 'u' then 'U'
  else if c = 'v' then 'V' else if c = 'w' then 'W' else if c = 'x' then 'X'
  else if c = 'y' then 'Y' else if c = 'z' then 'Z' else c

/-- Python's `str.lower` (ASCII range). -/
def lowerL (l : List Char) : List Char := l.map pyToLower

/-- Python's `str.upper` (ASCII range). -/
def upperL (l : List Char) : List Char := l.map pyToUpper

/-- Python's `str.lstrip()`. -/
def dropLeadWs (l : List Char) : List Char := l.dropWhile pyIsSpace

/-- Python's `str.rstrip()`. -/
def dropTrailWs (l : List Char) : List Char := (l.reverse.dropWhile pyIsSpace).reverse

/-- Python's `str.strip()`. -/
def pyStrip (l : List Char) : List Char := dropTrailWs (dropLeadWs l)

/-- Python's `str.find`: index of the first occurrence of `pat` in `l`
(`none` instead of Python's `-1` when there is no occurrence). -/
def findSub (l pat : List Char) : Option Nat :=
  if pat.isPrefixOf l then some 0 else
    match l with
    | [] => none
    | _ :: t => (findSub t pat).map (fun i => i + 1)

/-- The `explanation_markers` list of `NLToSQLConverter.translate`
(src/nl_to_sql.py lines 137-140). -/
def markerList : List (List Char) :=
  [strL ("this query will"), strL ("the query above"), strL ("explanation:"),
   strL ("here is the sql"), strL ("note:"), strL ("```")]

/-- One iteration of the marker loop of `NLToSQLConverter.translate`
(src/nl_to_sql.py lines 141-144): truncate at the first (case-insensitive)
occurrence of marker `m` and strip, otherwise leave the text unchanged. -/
def stepMarker (m q : List Char) : List Char :=
  match findSub (lowerL q) m with
  | some i => pyStrip (q.take i)
  | none => q

/-- The full marker loop of `NLToSQLConverter.translate`
(src/nl_to_sql.py lines 141-144), applied marker by marker in order. -/
def applyMarkers : List (List Char) → List Char → List Char
  | [], q => q
  | m :: ms, q => applyMarkers ms (stepMarker m q)

/-- Markdown-fence removal of `NLToSQLConverter.translate`
(src/nl_to_sql.py lines 108-111). -/
def stripFences (q : List Char) : List Char :=
  let q1 := if (strL ("```sql")).isPrefixOf q then pyStrip (q.drop 6) else q
  if (strL ("```")).isSuffixOf q1 then pyStrip (q1.take (q1.length - 3)) else q1

/-- Quote removal of `NLToSQLConverter.translate` (src/nl_to_sql.py lines
113-117): two independent, sequential checks, first for single quotes,
then for double quotes. -/
def stripQuotes (q : List Char) : List Char :=
  let q1 := if [quoteChar].isPrefixOf q && [quoteChar].isSuffixOf q
            then (q.drop 1).dropLast else q
  if [Char.ofNat 34].isPrefixOf q1 && [Char.ofNat 34].isSuffixOf q1
  then (q1.drop 1).dropLast else q1

/-- Steps 1-2 of the cleanup of `NLToSQLConverter.translate`
(src/nl_to_sql.py lines 103-117): strip, remove fences, remove quotes. -/
def preClean (raw : List Char) : List Char := stripQuotes (stripFences (pyStrip raw))

/-- Step 3 of the cleanup (src/nl_to_sql.py lines 119-144): if the token
`SELECT ` occurs (case-insensitively), keep the text from its first
occurrence on and then run the marker loop. -/
def extractSelect (q : List Char) : List Char :=
  match findSub (upperL q) (strL ("SELECT ")) with
  | none => q
  | some si =>
    match findSub (lowerL q) (strL ("select ")) with
    | some ai => applyMarkers markerList (q.drop ai)
    | none => applyMarkers markerList (q.drop si)

/-- Step 4 of the cleanup (src/nl_to_sql.py lines 146-148): append `;` when
the text starts (case-insensitively, after strip) with `SELECT` and does not
already end (after strip) with `;`. -/
def ensureSemi (q : List Char) : List Char :=
  if (strL ("SELECT")).isPrefixOf (pyStrip (upperL q)) &&
     !((strL (";")).isSuffixOf (pyStrip q))
  then pyStrip q ++ strL (";") else q

/-- The error message raised at src/nl_to_sql.py line 154. -/
def cleanupMsg : List Char :=
  strL ("LLM (Ollama) returned an empty or non-SELECT query after processing.")

/-- The completion-normalization cleanup of `NLToSQLConverter.translate`
(src/nl_to_sql.py lines 103-155): the spec's `normalize`. Returns the
cleaned SQL, or the error message of line 154 when the final acceptance
check (line 152) fails. -/
def normalizeCompletion (raw : List Char) : Except (List Char) (List Char) :=
  let q := ensureSemi (extractSelect (preClean raw))
  if q.isEmpty || !((strL ("SELECT")).isPrefixOf (pyStrip (upperL q)))
  then Except.error cleanupMsg
  else Except.ok q

deriving instance DecidableEq for Except

/-- A token of a parsed statement, as seen by the scan loop in
`SQLValidator.validate_schema_references` (src/sql_validator.py lines
97-121): keywords carry their `normalized` (upper-cased) form, identifiers
their `get_real_name()`, identifier lists the real names of their members;
everything else (whitespace, punctuation, literals, wildcards) is `other`. -/
inductive SqlToken where
  | keyword (normalized : List Char)
  | ident (realName : List Char)
  | identList (names : List (List Char))
  | other (text : List Char)
deriving DecidableEq

/-- The join keywords recognized at src/sql_validator.py line 101. -/
def joinKeywordList : List (List Char) :=
  [strL ("JOIN"), strL ("INNER JOIN"), strL ("LEFT JOIN"),
   strL ("RIGHT JOIN"), strL ("FULL OUTER JOIN")]

/-- Whether a token sets the `from_seen` flag in the scan loop
(src/sql_validator.py lines 98-103): the keyword `FROM` or a join keyword. -/
def isFromTrigger : SqlToken → Bool
  | SqlToken.keyword k => decide (k = strL ("FROM")) || joinKeywordList.contains k
  | _ => false

/-- Embedding of `real_name.split('.')[-1]`: the part of an identifier after its last dot. -/
def afterLastDot (nm : List Char) : List Char :=
  (nm.reverse.takeWhile (fun c => !(c = '.'))).reverse

/-- How a recorded table reference is derived from an identifier's real name
(src/sql_validator.py lines 109-112 and 117-120): keep only the part after
the last `.` when the name is dotted, then lower-case. -/
def realNameKey (nm : List Char) : List Char :=
  lowerL (if nm.contains '.' then afterLastDot nm else nm)

/-- The table-reference scan loop of `SQLValidator.validate_schema_references`
(src/sql_validator.py lines 94-121): a linear walk over the statement's
top-level tokens with a `from_seen` flag, recording one identifier (or one
identifier list) after each `FROM`/join keyword. -/
def scanTables : List SqlToken → Bool → List (List Char)
  | [], _ => []
  | SqlToken.keyword k :: ts, fromSeen =>
      if k = strL ("FROM") then scanTables ts true
      else if joinKeywordList.contains k then scanTables ts true
      else scanTables ts fromSeen
  | SqlToken.ident nm :: ts, fromSeen =>
      if fromSeen then realNameKey nm :: scanTables ts false
      else scanTables ts fromSeen
  | SqlToken.identList nms :: ts, fromSeen =>
      if fromSeen then nms.map realNameKey ++ scanTables ts false
      else scanTables ts fromSeen
  | SqlToken.other _ :: ts, fromSeen => scanTables ts fromSeen

/-- Modelled from the spec: the word separators used by the modelled
tokenizer of the external `sqlparse` collaborator (whitespace, the statement
terminator `;`, and the list separator `,`). -/
def isWordSep (c : Char) : Bool := pyIsSpace c || c = ';' || c = ','

/-- Modelled from the spec: split a statement's text into words. -/
def splitWords (l : List Char) : List (List Char) :=
  (l.splitOnP isWordSep).filter (fun w => !w.isEmpty)

/-- Modelled from the spec: SQL keywords the modelled tokenizer classifies as
keyword tokens (upper-cased, as `sqlparse` normalizes keywords). -/
def sqlKeywordList : List (List Char) :=
  [strL ("SELECT"), strL ("FROM"), strL ("WHERE"), strL ("JOIN"),
   strL ("INNER"), strL ("LEFT"), strL ("RIGHT"), strL ("FULL"),
   strL ("OUTER"), strL ("CROSS"), strL ("ON"), strL ("AND"), strL ("OR"),
   strL ("NOT"), strL ("AS"), strL ("GROUP"), strL ("BY"), strL ("ORDER"),
   strL ("LIMIT"), strL ("OFFSET"), strL ("HAVING"), strL ("DISTINCT"),
   strL ("UNION"), strL ("ALL"), strL ("IN"), strL ("IS"), strL ("NULL"),
   strL ("LIKE"), strL ("BETWEEN"), strL ("USING"), strL ("WITH")]

/-- Modelled from the spec: whether a character can start an identifier. -/
def isIdentStart (c : Char) : Bool := c.isAlpha || c = '_'

/-- Modelled from the spec: classification of one word by the external
`sqlparse` collaborator — known keywords become keyword tokens (normalized
to upper case), words starting with a letter or underscore become
identifiers, everything else (numbers, operators, literals, wildcards) is
an `other` token. -/
def classifyWord (w : List Char) : SqlToken :=
  let u := upperL w
  if sqlKeywordList.contains u then SqlToken.keyword u
  else
    match w with
    | [] => SqlToken.other []
    | c :: _ => if isIdentStart c then SqlToken.ident w else SqlToken.other w

/-- Modelled from the spec: the token stream of one statement as produced by
the external `sqlparse` collaborator, reduced to the granularity the scan
loop observes. -/
def tokenizeStmt (st : List Char) : List SqlToken := (splitWords st).map classifyWord

/-- Modelled from the spec: statement splitting of the external `sqlparse`
collaborator — statements are delimited on `;` boundaries outside
string literals, each `;` staying with the statement it ends. -/
def splitStmtsAux : List Char → Option Char → List Char → List (List Char)
  | [], _, acc => [acc.reverse]
  | c :: rest, some q, acc =>
      splitStmtsAux rest (if c = q then none else some q) (c :: acc)
  | c :: rest, none, acc =>
      if c = ';' then (c :: acc).reverse :: splitStmtsAux rest none []
      else if c = quoteChar || c = Char.ofNat 34 then splitStmtsAux rest (some c) (c :: acc)
      else splitStmtsAux rest none (c :: acc)

/-- Modelled from the spec: `sqlparse.parse` — the statement sequence a SQL
string parses to; an input with no non-blank statement text yields zero
statements. -/
def sqlparse_parse (sql : List Char) : List (List Char) :=
  (splitStmtsAux sql none []).filter (fun st => !(pyStrip st).isEmpty)

/-- Modelled from the spec: the statement types `sqlparse`'s `get_type`
reports for the statements this repository distinguishes. -/
def stmtTypeKeywordList : List (List Char) :=
  [strL ("SELECT"), strL ("INSERT"), strL ("UPDATE"), strL ("DELETE"),
   strL ("CREATE"), strL ("ALTER"), strL ("DROP")]

/-- Modelled from the spec: a statement's declared type (`get_type` of the
external `sqlparse` collaborator) — the first word when it is a known
DML/DDL/SELECT keyword, `UNKNOWN` otherwise. -/
def get_type (st : List Char) : List Char :=
  match splitWords st with
  | [] => strL ("UNKNOWN")
  | w :: _ => if stmtTypeKeywordList.contains (upperL w) then upperL w else strL ("UNKNOWN")

/-- A database schema as held by `SQLValidator`: table names with their
column names (`{'table_name': ['col1', ...], ...}`). -/
abbrev DbSchema : Type := List (List Char × List (List Char))

/-- Embedding of `SQLValidator.is_readonly_query` (src/sql_validator.py lines 18-37):
accept exactly when parsing yields at least one statement, the first
statement's type is `SELECT`, and there is no second statement. -/
def is_readonly_query (sql : List Char) : Bool :=
  match sqlparse_parse sql with
  | [] => false
  | st :: rest =>
    if get_type st ≠ strL ("SELECT") then false
    else if 0 < rest.length then false
    else true

/-- The lower-cased table names of the schema
(src/sql_validator.py line 128). -/
def schemaTableNames (schema : DbSchema) : List (List Char) :=
  schema.map (fun p => lowerL p.1)

/-- The rejection message of src/sql_validator.py line 136, naming the
offending table. -/
def tableErrMsg (t : List Char) : List Char :=
  strL ("Invalid SQL: Table \x27") ++ t ++ strL ("\x27 does not exist in the database schema.")

/-- Embedding of `SQLValidator.validate_schema_references` (src/sql_validator.py lines
73-144): skipped (accepting) on an empty schema; otherwise scans the first
statement's tokens for table references and rejects on the first one whose
key is not among the schema's lower-cased table names. -/
def validate_schema_references (schema : DbSchema) (sql : List Char) : Bool × List Char :=
  if schema.isEmpty then (true, strL ("Schema not available for validation."))
  else
    match sqlparse_parse sql with
    | [] => (false, strL ("Invalid SQL syntax (parsing failed)."))
    | st :: _ =>
      let extracted := scanTables (tokenizeStmt st) false
      match extracted.find? (fun t => !(decide (t ∈ schemaTableNames schema))) with
      | some t => (false, tableErrMsg t)
      | none => (true, strL ("SQL schema references seem valid."))

/-- Embedding of `SQLValidator.validate` (src/sql_validator.py lines 147-171): emptiness
check, read-only/single-statement check, then schema reference check. -/
def validate (schema : DbSchema) (sql : List Char) : Bool × List Char :=
  if (pyStrip sql).isEmpty then (false, strL ("SQL query is empty."))
  else if !(is_readonly_query sql) then
    (false, strL ("Invalid SQL: Only SELECT queries are permitted."))
  else
    let r := validate_schema_references schema sql
    if !r.1 then (false, r.2)
    else (true, strL ("SQL Validated"))

/-! Bridging lemmas between boolean list predicates and their Prop forms. -/

theorem isPrefixOf_iff {l₁ l₂ : List Char} : l₁.isPrefixOf l₂ = true ↔ l₁ <+: l₂ :=
  List.isPrefixOf_iff_prefix

theorem isSuffixOf_iff {l₁ l₂ : List Char} : l₁.isSuffixOf l₂ = true ↔ l₁ <:+ l₂ :=
  List.isSuffixOf_iff_suffix

theorem infixOf_of_pre {l₁ l₂ : List Char} (h : l₁ <+: l₂) : l₁ <:+: l₂ :=
  List.IsPrefix.isInfix h

theorem infixOf_of_suf {l₁ l₂ : List Char} (h : l₁ <:+ l₂) : l₁ <:+: l₂ :=
  List.IsSuffix.isInfix h

theorem preOf_take (n : Nat) (l : List Char) : l.take n <+: l :=
  List.take_prefix n l

/-- The function `is_readonly_query` accepts only when parsing yields exactly one
statement whose declared type is `SELECT`. -/
theorem is_readonly_query_shape {sql : List Char}
    (h : is_readonly_query sql = true) :
    ∃ st, sqlparse_parse sql = [st] ∧ get_type st = strL ("SELECT") := by
  rcases hp : sqlparse_parse sql with _ | ⟨st, rest⟩
  · simp only [is_readonly_query, hp] at h
    exact absurd h (by simp)
  · simp only [is_readonly_query, hp] at h
    split at h
    · exact absurd h (by simp)
    · split at h
      · exact absurd h (by simp)
      · rename_i hty hlen
        refine ⟨st, ?_, not_not.mp hty⟩
        rw [List.length_eq_zero.mp (Nat.eq_zero_of_not_pos hlen)]

/-- On a `validate` call that accepts, the read-only check passed. -/
theorem validate_true_readonly {schema : DbSchema} {sql : List Char}
    (h : (validate schema sql).1 = true) : is_readonly_query sql = true := by
  unfold validate at h
  split at h
  · exact absurd h (by simp)
  · split at h
    · exact absurd h (by simp)
    · rename_i hro
      simpa using hro

/-- C1: for every SQL string and every schema, `SQLValidator.validate`
returns accepted only when parsing yields exactly one statement whose
declared type is `SELECT`; in particular `DROP TABLE users;` is rejected
(not a SELECT) and `SELECT * FROM users; SELECT * FROM orders;` is
rejected (multiple statements), each with the read-only rejection
message, for every schema. -/
theorem C1_only_single_select_accepted :
    (∀ (schema : DbSchema) (sql : List Char), (validate schema sql).1 = true →
       ∃ st, sqlparse_parse sql = [st] ∧ get_type st = strL ("SELECT")) ∧
    (∀ schema : DbSchema, validate schema (strL ("DROP TABLE users;")) =
       (false, strL ("Invalid SQL: Only SELECT queries are permitted."))) ∧
    (∀ schema : DbSchema,
       validate schema (strL ("SELECT * FROM users; SELECT * FROM orders;")) =
       (false, strL ("Invalid SQL: Only SELECT queries are permitted."))) := by
  refine ⟨?_, ?_, ?_⟩
  · intro schema sql h
    exact is_readonly_query_shape (validate_true_readonly h)
  · intro schema
    have h1 : (pyStrip (strL ("DROP TABLE users;"))).isEmpty = false := by decide
    have h2 : is_readonly_query (strL ("DROP TABLE users;")) = false := by decide
    simp [validate, h1, h2]
  · intro schema
    have h1 : (pyStrip (strL ("SELECT * FROM users; SELECT * FROM orders;"))).isEmpty = false := by
      decide
    have h2 : is_readonly_query (strL ("SELECT * FROM users; SELECT * FROM orders;")) = false := by
      decide
    simp [validate, h1, h2]

/-- Witness for C1: a concrete accepted call, at which the characterization
yields the single SELECT statement. -/
theorem C1_witness :
    ∃ st, sqlparse_parse (strL ("SELECT 1;")) = [st] ∧ get_type st = strL ("SELECT") :=
  C1_only_single_select_accepted.1 [] (strL ("SELECT 1;")) (by decide)

/-- C3: with an empty schema every SQL string that passes the emptiness
check and the read-only/single-statement check is accepted, regardless of
which table names it references — the schema reference check is skipped. -/
theorem C3_empty_schema_accepts :
    ∀ sql : List Char, (pyStrip sql).isEmpty = false → is_readonly_query sql = true →
      validate [] sql = (true, strL ("SQL Validated")) := by
  intro sql h1 h2
  simp [validate, h1, h2, validate_schema_references]

/-- Witness for C3: a query naming a table no schema could contain is
accepted against the empty schema. -/
theorem C3_witness :
    validate [] (strL ("SELECT * FROM ghost_table;")) = (true, strL ("SQL Validated")) :=
  C3_empty_schema_accepts (strL ("SELECT * FROM ghost_table;")) (by decide) (by decide)

/-- C6: the SQL-fenced completion is reduced to the bare statement and a
terminating semicolon is appended. -/
theorem C6_fence_normalization :
    normalizeCompletion (strL ("```sql\nSELECT * FROM users\n```")) =
      Except.ok (strL ("SELECT * FROM users;")) := by decide

/-- Counterexample for C4: the completion `SELECT` contains no occurrence of
the token `SELECT ` (with trailing space) after cleaning, yet
`normalizeCompletion` accepts it (as `SELECT;`) instead of rejecting. -/
theorem C4_cex :
    findSub (upperL (preClean (strL ("SELECT")))) (strL ("SELECT ")) = none ∧
    normalizeCompletion (strL ("SELECT")) = Except.ok (strL ("SELECT;")) := by decide

/-- C4 (amended): if the cleaned text has no occurrence of `SELECT ` and
moreover does not itself start (case-insensitively, after strip) with
`SELECT`, normalization rejects — with the generic "empty or non-SELECT
query after processing" message (the code has no dedicated "no SELECT
found" rejection); in particular `I cannot help with that.` is rejected
with that message. -/
theorem C4_no_select_rejected_amended :
    (∀ raw : List Char,
       findSub (upperL (preClean raw)) (strL ("SELECT ")) = none →
       (strL ("SELECT")).isPrefixOf (pyStrip (upperL (preClean raw))) = false →
       normalizeCompletion raw = Except.error cleanupMsg) ∧
    normalizeCompletion (strL ("I cannot help with that.")) = Except.error cleanupMsg := by
  constructor
  · intro raw h1 h2
    have he : extractSelect (preClean raw) = preClean raw := by
      simp [extractSelect, h1]
    have hs : ensureSemi (preClean raw) = preClean raw := by
      simp [ensureSemi, h2]
    simp [normalizeCompletion, he, hs, h2]
  · decide

/-- Witness for C4: the amended rejection applied at the concrete completion. -/
theorem C4_witness :
    normalizeCompletion (strL ("I do not know.")) = Except.error cleanupMsg :=
  C4_no_select_rejected_amended.1 (strL ("I do not know.")) (by decide) (by decide)

/-- Counterexample for C5: a completion wrapped in single quotes whose
interior is wrapped in double quotes loses BOTH layers, not exactly one
(one layer would leave the double quotes in place). -/
theorem C5_cex :
    stripQuotes (strL ("\x27\x22SELECT 1;\x22\x27")) = strL ("SELECT 1;") ∧
    strL ("SELECT 1;") ≠ strL ("\x22SELECT 1;\x22") := by decide

/-- C5 (amended): the quote-removal step strips one layer of single quotes
and then, independently, one layer of double quotes.  When the whole text
is single-quoted and its interior is double-quoted, both layers are
stripped; when it is double-quoted with a single-quoted interior, only the
outer (double) layer is stripped. -/
theorem C5_quote_layers_amended :
    (∀ u : List Char,
       stripQuotes (quoteChar :: (Char.ofNat 34 :: u ++ [Char.ofNat 34]) ++ [quoteChar]) = u) ∧
    (∀ u : List Char,
       stripQuotes (Char.ofNat 34 :: (quoteChar :: u ++ [quoteChar]) ++ [Char.ofNat 34]) =
         quoteChar :: u ++ [quoteChar]) := by
  constructor
  · intro u
    have hpre : [quoteChar].isPrefixOf
        (quoteChar :: (Char.ofNat 34 :: u ++ [Char.ofNat 34]) ++ [quoteChar]) = true := by
      rw [isPrefixOf_iff]; exact ⟨_, rfl⟩
    have hsuf : [quoteChar].isSuffixOf
        (quoteChar :: (Char.ofNat 34 :: u ++ [Char.ofNat 34]) ++ [quoteChar]) = true := by
      rw [isSuffixOf_iff]
      exact ⟨quoteChar :: (Char.ofNat 34 :: u ++ [Char.ofNat 34]), rfl⟩
    have hc1 : ([quoteChar].isPrefixOf
          (quoteChar :: (Char.ofNat 34 :: u ++ [Char.ofNat 34]) ++ [quoteChar]) &&
        [quoteChar].isSuffixOf
          (quoteChar :: (Char.ofNat 34 :: u ++ [Char.ofNat 34]) ++ [quoteChar])) = true := by
      rw [hpre, hsuf]; rfl
    have hstep : (List.drop 1
          (quoteChar :: (Char.ofNat 34 :: u ++ [Char.ofNat 34]) ++ [quoteChar])).dropLast
        = Char.ofNat 34 :: u ++ [Char.ofNat 34] := by
      show ((Char.ofNat 34 :: u ++ [Char.ofNat 34]) ++ [quoteChar]).dropLast = _
      rw [List.dropLast_concat]
    have hpre2 : [Char.ofNat 34].isPrefixOf (Char.ofNat 34 :: u ++ [Char.ofNat 34]) = true := by
      rw [isPrefixOf_iff]; exact ⟨_, rfl⟩
    have hsuf2 : [Char.ofNat 34].isSuffixOf (Char.ofNat 34 :: u ++ [Char.ofNat 34]) = true := by
      rw [isSuffixOf_iff]
      exact ⟨Char.ofNat 34 :: u, rfl⟩
    have hc2 : ([Char.ofNat 34].isPrefixOf (Char.ofNat 34 :: u ++ [Char.ofNat 34]) &&
        [Char.ofNat 34].isSuffixOf (Char.ofNat 34 :: u ++ [Char.ofNat 34])) = true := by
      rw [hpre2, hsuf2]; rfl
    have hstep2 : (List.drop 1 (Char.ofNat 34 :: u ++ [Char.ofNat 34])).dropLast = u := by
      show (u ++ [Char.ofNat 34]).dropLast = u
      rw [List.dropLast_concat]
    unfold stripQuotes
    rw [if_pos hc1, hstep, if_pos hc2, hstep2]
  · intro u
    have hb1 : [quoteChar].isPrefixOf
        (Char.ofNat 34 :: (quoteChar :: u ++ [quoteChar]) ++ [Char.ofNat 34]) = false := by
      rw [Bool.eq_false_iff]
      intro hc
      rcases isPrefixOf_iff.mp hc with ⟨t, ht⟩
      simp at ht
      exact absurd ht.1 (by decide)
    have hn1 : ¬(([quoteChar].isPrefixOf
          (Char.ofNat 34 :: (quoteChar :: u ++ [quoteChar]) ++ [Char.ofNat 34]) &&
        [quoteChar].isSuffixOf
          (Char.ofNat 34 :: (quoteChar :: u ++ [quoteChar]) ++ [Char.ofNat 34])) = true) := by
      rw [hb1]; simp
    have hpre2 : [Char.ofNat 34].isPrefixOf
        (Char.ofNat 34 :: (quoteChar :: u ++ [quoteChar]) ++ [Char.ofNat 34]) = true := by
      rw [isPrefixOf_iff]; exact ⟨_, rfl⟩
    have hsuf2 : [Char.ofNat 34].isSuffixOf
        (Char.ofNat 34 :: (quoteChar :: u ++ [quoteChar]) ++ [Char.ofNat 34]) = true := by
      rw [isSuffixOf_iff]
      exact ⟨Char.ofNat 34 :: (quoteChar :: u ++ [quoteChar]), rfl⟩
    have hc2 : ([Char.ofNat 34].isPrefixOf
          (Char.ofNat 34 :: (quoteChar :: u ++ [quoteChar]) ++ [Char.ofNat 34]) &&
        [Char.ofNat 34].isSuffixOf
          (Char.ofNat 34 :: (quoteChar :: u ++ [quoteChar]) ++ [Char.ofNat 34])) = true := by
      rw [hpre2, hsuf2]; rfl
    have hstep : (List.drop 1
          (Char.ofNat 34 :: (quoteChar :: u ++ [quoteChar]) ++ [Char.ofNat 34])).dropLast
        = quoteChar :: u ++ [quoteChar] := by
      show ((quoteChar :: u ++ [quoteChar]) ++ [Char.ofNat 34]).dropLast = _
      rw [List.dropLast_concat]
    unfold stripQuotes
    rw [if_neg hn1, if_pos hc2, hstep]

/-- Witness for C5: the amended behavior at a concrete interior. -/
theorem C5_witness :
    stripQuotes (quoteChar :: (Char.ofNat 34 :: strL ("SELECT 1;") ++ [Char.ofNat 34]) ++ [quoteChar]) =
      strL ("SELECT 1;") :=
  C5_quote_layers_amended.1 (strL ("SELECT 1;"))

/-- C2: with a non-empty schema, on a parsed statement `validate` rejects
exactly when the table scan records a reference whose lower-cased name is
missing from the schema's (lower-cased) table names, and the rejection
message names an offending table; when every recorded reference resolves it
accepts.  Concretely, `SELECT * FROM ghost_table;` against a schema with
only `users` is rejected with a message containing `ghost_table`. -/
theorem C2_unknown_table_rejected_named :
    (∀ (schema : DbSchema) (sql st : List Char) (tl : List (List Char)),
       schema.isEmpty = false →
       sqlparse_parse sql = st :: tl →
       (pyStrip sql).isEmpty = false →
       is_readonly_query sql = true →
       ((∃ t ∈ scanTables (tokenizeStmt st) false, t ∉ schemaTableNames schema) →
          (validate schema sql).1 = false ∧
          ∃ t ∈ scanTables (tokenizeStmt st) false, t ∉ schemaTableNames schema ∧
            t <:+: (validate schema sql).2) ∧
       ((∀ t ∈ scanTables (tokenizeStmt st) false, t ∈ schemaTableNames schema) →
          validate schema sql = (true, strL ("SQL Validated")))) ∧
    (validate [(strL ("users"), [strL ("user_id")])] (strL ("SELECT * FROM ghost_table;")) =
       (false, tableErrMsg (strL ("ghost_table"))) ∧
     strL ("ghost_table") <:+: tableErrMsg (strL ("ghost_table"))) := by
  constructor
  · intro schema sql st tl hne hp hstrip hro
    constructor
    · intro hbad
      rcases hfind : (scanTables (tokenizeStmt st) false).find?
          (fun t => !(decide (t ∈ schemaTableNames schema))) with _ | t0
      · rcases hbad with ⟨t, htmem, htc⟩
        have hnone := List.find?_eq_none.mp hfind t htmem
        simp [htc] at hnone
      · have hv : validate_schema_references schema sql = (false, tableErrMsg t0) := by
          simp only [validate_schema_references, hne, hp]
          rw [hfind]
          rfl
        have hval : validate schema sql = (false, tableErrMsg t0) := by
          simp [validate, hstrip, hro, hv]
        refine ⟨by rw [hval], t0, List.mem_of_find?_eq_some hfind, ?_, ?_⟩
        · have hsome := List.find?_some hfind
          simpa using hsome
        · rw [hval]
          exact ⟨strL ("Invalid SQL: Table \x27"),
                 strL ("\x27 does not exist in the database schema."), rfl⟩
    · intro hall
      have hfind : (scanTables (tokenizeStmt st) false).find?
          (fun t => !(decide (t ∈ schemaTableNames schema))) = none := by
        rw [List.find?_eq_none]
        intro t ht
        simp [hall t ht]
      have hv : validate_schema_references schema sql =
          (true, strL ("SQL schema references seem valid.")) := by
        simp only [validate_schema_references, hne, hp]
        rw [hfind]
        rfl
      simp [validate, hstrip, hro, hv]
  · constructor
    · decide
    · exact ⟨strL ("Invalid SQL: Table \x27"),
             strL ("\x27 does not exist in the database schema."), rfl⟩

/-- Witness for C2: the rejection characterization applied at the concrete
ghost-table query and one-table schema. -/
theorem C2_witness :
    (validate [(strL ("users"), [strL ("user_id")])] (strL ("SELECT * FROM ghost_table;"))).1 = false ∧
    ∃ t ∈ scanTables (tokenizeStmt (strL ("SELECT * FROM ghost_table;"))) false,
      t ∉ schemaTableNames [(strL ("users"), [strL ("user_id")])] ∧
      t <:+: (validate [(strL ("users"), [strL ("user_id")])] (strL ("SELECT * FROM ghost_table;"))).2 :=
  (C2_unknown_table_rejected_named.1 [(strL ("users"), [strL ("user_id")])]
    (strL ("SELECT * FROM ghost_table;")) (strL ("SELECT * FROM ghost_table;")) []
    (by decide) (by decide) (by decide) (by decide)).1
    (by decide)

/-- C8: a table reference recorded after a `FROM`/join keyword that contains
a dot is reduced to the substring after its last dot (lower-cased) before
comparison; consequently any schema-qualified reference to a known table is
accepted, e.g. `pg_catalog.users` against any schema containing `users`. -/
theorem C8_dot_reduced_to_last_segment :
    (∀ (nm : List Char) (ts : List SqlToken), nm.contains '.' = true →
       scanTables (SqlToken.ident nm :: ts) true =
         lowerL (afterLastDot nm) :: scanTables ts false) ∧
    (∀ schema : DbSchema, (∃ p ∈ schema, lowerL p.1 = strL ("users")) →
       validate schema (strL ("SELECT * FROM pg_catalog.users;")) =
         (true, strL ("SQL Validated"))) := by
  constructor
  · intro nm ts hdot
    have hdot2 : '.' ∈ nm := by simpa using hdot
    simp [scanTables, realNameKey, hdot2]
  · intro schema hex
    rcases hex with ⟨p, hp, hlow⟩
    have hne : schema.isEmpty = false := by
      rw [List.isEmpty_eq_false]
      exact List.ne_nil_of_mem hp
    have hparse : sqlparse_parse (strL ("SELECT * FROM pg_catalog.users;")) =
        [strL ("SELECT * FROM pg_catalog.users;")] := by decide
    have hscan : scanTables (tokenizeStmt (strL ("SELECT * FROM pg_catalog.users;"))) false =
        [strL ("users")] := by decide
    have hmem : strL ("users") ∈ schemaTableNames schema := by
      rw [← hlow]
      exact List.mem_map.mpr ⟨p, hp, rfl⟩
    have hfind : (scanTables (tokenizeStmt (strL ("SELECT * FROM pg_catalog.users;"))) false).find?
        (fun t => !(decide (t ∈ schemaTableNames schema))) = none := by
      rw [hscan, List.find?_eq_none]
      intro t ht
      simp only [List.mem_singleton] at ht
      subst ht
      simp [hmem]
    have hv : validate_schema_references schema (strL ("SELECT * FROM pg_catalog.users;")) =
        (true, strL ("SQL schema references seem valid.")) := by
      simp only [validate_schema_references, hne, hparse]
      rw [hfind]
      rfl
    have hstrip : (pyStrip (strL ("SELECT * FROM pg_catalog.users;"))).isEmpty = false := by decide
    have hro : is_readonly_query (strL ("SELECT * FROM pg_catalog.users;")) = true := by decide
    simp [validate, hstrip, hro, hv]

/-- Witness for C8: the dot-reduction applied at a concrete dotted name, and
the schema-qualified acceptance at a concrete schema. -/
theorem C8_witness :
    scanTables (SqlToken.ident (strL ("pg_catalog.users")) :: []) true =
      lowerL (afterLastDot (strL ("pg_catalog.users"))) :: scanTables [] false ∧
    validate [(strL ("users"), [strL ("user_id")])] (strL ("SELECT * FROM pg_catalog.users;")) =
      (true, strL ("SQL Validated")) :=
  ⟨C8_dot_reduced_to_last_segment.1 (strL ("pg_catalog.users")) [] (by decide),
   C8_dot_reduced_to_last_segment.2 [(strL ("users"), [strL ("user_id")])]
     ⟨(strL ("users"), [strL ("user_id")]), by simp, by decide⟩⟩

/-- The scan records nothing when no token is a `FROM`/join keyword and the
flag starts cleared. -/
theorem scanTables_nil_of_no_trigger :
    ∀ ts : List SqlToken, (∀ t ∈ ts, isFromTrigger t = false) → scanTables ts false = [] := by
  intro ts
  induction ts with
  | nil => intro _; rfl
  | cons t ts ih =>
    intro h
    have ht := h t (by simp)
    have hrest : ∀ x ∈ ts, isFromTrigger x = false := fun x hx => h x (by simp [hx])
    cases t with
    | keyword k =>
      simp only [isFromTrigger, Bool.or_eq_false_iff, decide_eq_false_iff_not] at ht
      simp only [scanTables]
      rw [if_neg ht.1, if_neg (by rw [ht.2]; simp), ih hrest]
    | ident nm => simpa [scanTables] using ih hrest
    | identList nms => simpa [scanTables] using ih hrest
    | other tx => simpa [scanTables] using ih hrest

/-- C9: a single SELECT statement with no `FROM` and no join keyword yields
an empty extracted table-reference set and is accepted by `validate`
against every schema (empty or not); in particular `SELECT 1;` is accepted
against every schema. -/
theorem C9_no_from_join_accepts :
    (∀ ts : List SqlToken, (∀ t ∈ ts, isFromTrigger t = false) → scanTables ts false = []) ∧
    (∀ (schema : DbSchema) (sql st : List Char) (tl : List (List Char)),
       (pyStrip sql).isEmpty = false → is_readonly_query sql = true →
       sqlparse_parse sql = st :: tl →
       (∀ t ∈ tokenizeStmt st, isFromTrigger t = false) →
       validate schema sql = (true, strL ("SQL Validated"))) ∧
    (∀ schema : DbSchema, validate schema (strL ("SELECT 1;")) = (true, strL ("SQL Validated"))) := by
  refine ⟨scanTables_nil_of_no_trigger, ?_, ?_⟩
  · intro schema sql st tl hstrip hro hp htok
    rcases hne : schema.isEmpty with _ | _
    · have hv : validate_schema_references schema sql =
          (true, strL ("SQL schema references seem valid.")) := by
        simp only [validate_schema_references, hne, hp]
        rw [scanTables_nil_of_no_trigger (tokenizeStmt st) htok]
        rfl
      simp [validate, hstrip, hro, hv]
    · have hv : validate_schema_references schema sql =
          (true, strL ("Schema not available for validation.")) := by
        simp [validate_schema_references, hne]
      simp [validate, hstrip, hro, hv]
  · intro schema
    have hstrip : (pyStrip (strL ("SELECT 1;"))).isEmpty = false := by decide
    have hro : is_readonly_query (strL ("SELECT 1;")) = true := by decide
    have hp : sqlparse_parse (strL ("SELECT 1;")) = [strL ("SELECT 1;")] := by decide
    have htok : ∀ t ∈ tokenizeStmt (strL ("SELECT 1;")), isFromTrigger t = false := by decide
    rcases hne : schema.isEmpty with _ | _
    · have hv : validate_schema_references schema (strL ("SELECT 1;")) =
          (true, strL ("SQL schema references seem valid.")) := by
        simp only [validate_schema_references, hne, hp]
        rw [scanTables_nil_of_no_trigger (tokenizeStmt (strL ("SELECT 1;"))) htok]
        rfl
      simp [validate, hstrip, hro, hv]
    · have hv : validate_schema_references schema (strL ("SELECT 1;")) =
          (true, strL ("Schema not available for validation.")) := by
        simp [validate_schema_references, hne]
      simp [validate, hstrip, hro, hv]

/-- Witness for C9: the acceptance applied at a concrete non-empty schema
and the concrete statement `SELECT 1;`. -/
theorem C9_witness :
    validate [(strL ("users"), [strL ("a")])] (strL ("SELECT 1;")) =
      (true, strL ("SQL Validated")) :=
  C9_no_from_join_accepts.2.1 [(strL ("users"), [strL ("a")])]
    (strL ("SELECT 1;")) (strL ("SELECT 1;")) []
    (by decide) (by decide) (by decide) (by decide)

/-! Character-level facts about the ASCII case maps. -/

theorem pyIsSpace_upper (c : Char) : pyIsSpace (pyToUpper c) = pyIsSpace c := by
  unfold pyToUpper
  by_cases h1 : c = 'a'
  · subst h1; decide
  by_cases h2 : c = 'b'
  · subst h2; decide
  by_cases h3 : c = 'c'
  · subst h3; decide
  by_cases h4 : c = 'd'
  · subst h4; decide
  by_cases h5 : c = 'e'
  · subst h5; decide
  by_cases h6 : c = 'f'
  · subst h6; decide
  by_cases h7 : c = 'g'
  · subst h7; decide
  by_cases h8 : c = 'h'
  · subst h8; decide
  by_cases h9 : c = 'i'
  · subst h9; decide
  by_cases h10 : c = 'j'
  · subst h10; decide
  by_cases h11 : c = 'k'
  · subst h11; decide
  by_cases h12 : c = 'l'
  · subst h12; decide
  by_cases h13 : c = 'm'
  · subst h13; decide
  by_cases h14 : c = 'n'
  · subst h14; decide
  by_cases h15 : c = 'o'
  · subst h15; decide
  by_cases h16 : c = 'p'
  · subst h16; decide
  by_cases h17 : c = 'q'
  · subst h17; decide
  by_cases h18 : c = 'r'
  · subst h18; decide
  by_cases h19 : c = 's'
  · subst h19; decide
  by_cases h20 : c = 't'
  · subst h20; decide
  by_cases h21 : c = 'u'
  · subst h21; decide
  by_cases h22 : c = 'v'
  · subst h22; decide
  by_cases h23 : c = 'w'
  · subst h23; decide
  by_cases h24 : c = 'x'
  · subst h24; decide
  by_cases h25 : c = 'y'
  · subst h25; decide
  by_cases h26 : c = 'z'
  · subst h26; decide
  rw [if_neg h1, if_neg h2, if_neg h3, if_neg h4, if_neg h5, if_neg h6, if_neg h7, if_neg h8, if_neg h9, if_neg h10, if_neg h11, if_neg h12, if_neg h13, if_neg h14, if_neg h15, if_neg h16, if_neg h17, if_neg h18, if_neg h19, if_neg h20, if_neg h21, if_neg h22, if_neg h23, if_neg h24, if_neg h25, if_neg h26]

theorem pyIsSpace_lower (c : Char) : pyIsSpace (pyToLower c) = pyIsSpace c := by
  unfold pyToLower
  by_cases h1 : c = 'A'
  · subst h1; decide
  by_cases h2 : c = 'B'
  · subst h2; decide
  by_cases h3 : c = 'C'
  · subst h3; decide
  by_cases h4 : c = 'D'
  · subst h4; decide
  by_cases h5 : c = 'E'
  · subst h5; decide
  by_cases h6 : c = 'F'
  · subst h6; decide
  by_cases h7 : c = 'G'
  · subst h7; decide
  by_cases h8 : c = 'H'
  · subst h8; decide
  by_cases h9 : c = 'I'
  · subst h9; decide
  by_cases h10 : c = 'J'
  · subst h10; decide
  by_cases h11 : c = 'K'
  · subst h11; decide
  by_cases h12 : c = 'L'
  · subst h12; decide
  by_cases h13 : c = 'M'
  · subst h13; decide
  by_cases h14 : c = 'N'
  · subst h14; decide
  by_cases h15 : c = 'O'
  · subst h15; decide
  by_cases h16 : c = 'P'
  · subst h16; decide
  by_cases h17 : c = 'Q'
  · subst h17; decide
  by_cases h18 : c = 'R'
  · subst h18; decide
  by_cases h19 : c = 'S'
  · subst h19; decide
  by_cases h20 : c = 'T'
  · subst h20; decide
  by_cases h21 : c = 'U'
  · subst h21; decide
  by_cases h22 : c = 'V'
  · subst h22; decide
  by_cases h23 : c = 'W'
  · subst h23; decide
  by_cases h24 : c = 'X'
  · subst h24; decide
  by_cases h25 : c = 'Y'
  · subst h25; decide
  by_cases h26 : c = 'Z'
  · subst h26; decide
  rw [if_neg h1, if_neg h2, if_neg h3, if_neg h4, if_neg h5, if_neg h6, if_neg h7, if_neg h8, if_neg h9, if_neg h10, if_neg h11, if_neg h12, if_neg h13, if_neg h14, if_neg h15, if_neg h16, if_neg h17, if_neg h18, if_neg h19, if_neg h20, if_neg h21, if_neg h22, if_neg h23, if_neg h24, if_neg h25, if_neg h26]

theorem charCorr (c : Char) :
    (pyToLower c = 's' ↔ pyToUpper c = 'S') ∧ (pyToLower c = 'e' ↔ pyToUpper c = 'E') ∧
    (pyToLower c = 'l' ↔ pyToUpper c = 'L') ∧ (pyToLower c = 'c' ↔ pyToUpper c = 'C') ∧
    (pyToLower c = 't' ↔ pyToUpper c = 'T') ∧ (pyToLower c = ' ' ↔ pyToUpper c = ' ') := by
  unfold pyToLower pyToUpper
  by_cases h1 : c = 'A'
  · subst h1; decide
  by_cases h2 : c = 'B'
  · subst h2; decide
  by_cases h3 : c = 'C'
  · subst h3; decide
  by_cases h4 : c = 'D'
  · subst h4; decide
  by_cases h5 : c = 'E'
  · subst h5; decide
  by_cases h6 : c = 'F'
  · subst h6; decide
  by_cases h7 : c = 'G'
  · subst h7; decide
  by_cases h8 : c = 'H'
  · subst h8; decide
  by_cases h9 : c = 'I'
  · subst h9; decide
  by_cases h10 : c = 'J'
  · subst h10; decide
  by_cases h11 : c = 'K'
  · subst h11; decide
  by_cases h12 : c = 'L'
  · subst h12; decide
  by_cases h13 : c = 'M'
  · subst h13; decide
  by_cases h14 : c = 'N'
  · subst h14; decide
  by_cases h15 : c = 'O'
  · subst h15; decide
  by_cases h16 : c = 'P'
  · subst h16; decide
  by_cases h17 : c = 'Q'
  · subst h17; decide
  by_cases h18 : c = 'R'
  · subst h18; decide
  by_cases h19 : c = 'S'
  · subst h19; decide
  by_cases h20 : c = 'T'
  · subst h20; decide
  by_cases h21 : c = 'U'
  · subst h21; decide
  by_cases h22 : c = 'V'
  · subst h22; decide
  by_cases h23 : c = 'W'
  · subst h23; decide
  by_cases h24 : c = 'X'
  · subst h24; decide
  by_cases h25 : c = 'Y'
  · subst h25; decide
  by_cases h26 : c = 'Z'
  · subst h26; decide
  by_cases g1 : c = 'a'
  · subst g1; decide
  by_cases g2 : c = 'b'
  · subst g2; decide
  by_cases g3 : c = 'c'
  · subst g3; decide
  by_cases g4 : c = 'd'
  · subst g4; decide
  by_cases g5 : c = 'e'
  · subst g5; decide
  by_cases g6 : c = 'f'
  · subst g6; decide
  by_cases g7 : c = 'g'
  · subst g7; decide
  by_cases g8 : c = 'h'
  · subst g8; decide
  by_cases g9 : c = 'i'
  · subst g9; decide
  by_cases g10 : c = 'j'
  · subst g10; decide
  by_cases g11 : c = 'k'
  · subst g11; decide
  by_cases g12 : c = 'l'
  · subst g12; decide
  by_cases g13 : c = 'm'
  · subst g13; decide
  by_cases g14 : c = 'n'
  · subst g14; decide
  by_cases g15 : c = 'o'
  · subst g15; decide
  by_cases g16 : c = 'p'
  · subst g16; decide
  by_cases g17 : c = 'q'
  · subst g17; decide
  by_cases g18 : c = 'r'
  · subst g18; decide
  by_cases g19 : c = 's'
  · subst g19; decide
  by_cases g20 : c = 't'
  · subst g20; decide
  by_cases g21 : c = 'u'
  · subst g21; decide
  by_cases g22 : c = 'v'
  · subst g22; decide
  by_cases g23 : c = 'w'
  · subst g23; decide
  by_cases g24 : c = 'x'
  · subst g24; decide
  by_cases g25 : c = 'y'
  · subst g25; decide
  by_cases g26 : c = 'z'
  · subst g26; decide
  rw [if_neg h1, if_neg h2, if_neg h3, if_neg h4, if_neg h5, if_neg h6, if_neg h7, if_neg h8, if_neg h9, if_neg h10, if_neg h11, if_neg h12, if_neg h13, if_neg h14, if_neg h15, if_neg h16, if_neg h17, if_neg h18, if_neg h19, if_neg h20, if_neg h21, if_neg h22, if_neg h23, if_neg h24, if_neg h25, if_neg h26, if_neg g1, if_neg g2, if_neg g3, if_neg g4, if_neg g5, if_neg g6, if_neg g7, if_neg g8, if_neg g9, if_neg g10, if_neg g11, if_neg g12, if_neg g13, if_neg g14, if_neg g15, if_neg g16, if_neg g17, if_neg g18, if_neg g19, if_neg g20, if_neg g21, if_neg g22, if_neg g23, if_neg g24, if_neg g25, if_neg g26]
  simp_all

/-! Facts about `findSub` (first-occurrence search). -/

theorem infix_nil_iff {pat : List Char} : pat <:+: ([] : List Char) ↔ pat = [] := by
  constructor
  · rintro ⟨s, t, hst⟩
    rcases List.append_eq_nil.mp hst with ⟨h1, h2⟩
    exact (List.append_eq_nil.mp h1).2
  · rintro rfl
    exact ⟨[], [], rfl⟩

theorem findSub_eq_none {l pat : List Char} : findSub l pat = none ↔ ¬ pat <:+: l := by
  induction l with
  | nil =>
    by_cases hp : pat = []
    · subst hp
      simp [findSub, List.isPrefixOf, infix_nil_iff]
    · have hp2 : pat.isPrefixOf ([] : List Char) = false := by
        rw [Bool.eq_false_iff]
        intro hc
        exact hp (List.prefix_nil.mp (isPrefixOf_iff.mp hc))
      rw [findSub, if_neg (by rw [hp2]; simp)]
      simp [infix_nil_iff, hp]
  | cons a t ih =>
    by_cases hp : pat.isPrefixOf (a :: t) = true
    · have hinf : pat <:+: a :: t := infixOf_of_pre (isPrefixOf_iff.mp hp)
      rw [findSub, if_pos hp]
      simp [hinf]
    · have hp2 : ¬ pat <+: a :: t := fun hc => hp (isPrefixOf_iff.mpr hc)
      have hstep : findSub (a :: t) pat = (findSub t pat).map (fun i => i + 1) := by
        rw [findSub, if_neg hp]
      rw [hstep, List.infix_cons_iff]
      simp only [Option.map_eq_none']
      rw [ih]
      constructor
      · intro h hor
        rcases hor with h1 | h2
        · exact hp2 h1
        · exact h h2
      · intro h h2
        exact h (Or.inr h2)

theorem findSub_some_pre : ∀ {l pat : List Char} {i : Nat},
    findSub l pat = some i → pat <+: l.drop i := by
  intro l
  induction l with
  | nil =>
    intro pat i h
    rw [findSub] at h
    split at h
    · rename_i hp
      cases h
      exact isPrefixOf_iff.mp hp
    · exact absurd h (by simp)
  | cons a t ih =>
    intro pat i h
    rw [findSub] at h
    split at h
    · rename_i hp
      cases h
      exact isPrefixOf_iff.mp hp
    · have h2 : (findSub t pat).map (fun j => j + 1) = some i := h
      rcases Option.map_eq_some'.mp h2 with ⟨j, hj, rfl⟩
      exact ih hj

theorem findSub_some_min : ∀ {l pat : List Char} {i : Nat},
    findSub l pat = some i → ∀ j, j < i → ¬ pat <+: l.drop j := by
  intro l
  induction l with
  | nil =>
    intro pat i h
    rw [findSub] at h
    split at h
    · cases h
      intro j hj
      exact absurd hj (by simp)
    · exact absurd h (by simp)
  | cons a t ih =>
    intro pat i h
    rw [findSub] at h
    split at h
    · cases h
      intro j hj
      exact absurd hj (by simp)
    · rename_i hp
      have h2 : (findSub t pat).map (fun j => j + 1) = some i := h
      rcases Option.map_eq_some'.mp h2 with ⟨j0, hj0, rfl⟩
      intro j hj
      cases j with
      | zero =>
        intro hc
        exact hp (isPrefixOf_iff.mpr hc)
      | succ j' =>
        exact ih hj0 j' (Nat.lt_of_succ_lt_succ hj)

theorem findSub_of_pre {l pat : List Char} (h : pat <+: l) : findSub l pat = some 0 := by
  rw [findSub.eq_def, if_pos (isPrefixOf_iff.mpr h)]

theorem infixOf_iff_drop {l₁ l₂ : List Char} : l₁ <:+: l₂ ↔ ∃ j, l₁ <+: l₂.drop j := by
  constructor
  · rintro ⟨s, t, rfl⟩
    refine ⟨s.length, ?_⟩
    rw [List.append_assoc, List.drop_left]
    exact ⟨t, rfl⟩
  · rintro ⟨j, t, hjt⟩
    exact ⟨l₂.take j, t, by rw [List.append_assoc, hjt, List.take_append_drop]⟩

theorem findSub_none_of_not_infixOf {l pat : List Char} (h : ¬ pat <:+: l) :
    findSub l pat = none := findSub_eq_none.mpr h

/-! Structural facts about `pyStrip`. -/

theorem dropWhile_twice (p : Char → Bool) (l : List Char) :
    (l.dropWhile p).dropWhile p = l.dropWhile p := by
  induction l with
  | nil => rfl
  | cons a t ih =>
    rw [List.dropWhile_cons]
    split
    · exact ih
    · rename_i hn
      rw [List.dropWhile_cons, if_neg hn]

theorem dropTrailWs_twice (l : List Char) : dropTrailWs (dropTrailWs l) = dropTrailWs l := by
  unfold dropTrailWs
  rw [List.reverse_reverse, dropWhile_twice]

theorem sufOf_dropLead (l : List Char) : dropLeadWs l <:+ l :=
  List.dropWhile_suffix pyIsSpace

theorem preOf_dropTrail (l : List Char) : dropTrailWs l <+: l := by
  rw [← List.reverse_suffix]
  unfold dropTrailWs
  rw [List.reverse_reverse]
  exact List.dropWhile_suffix pyIsSpace

theorem infixOf_pyStrip (l : List Char) : pyStrip l <:+: l :=
  List.IsInfix.trans (infixOf_of_pre (preOf_dropTrail (dropLeadWs l)))
    (infixOf_of_suf (sufOf_dropLead l))

theorem dropLeadWs_head : ∀ {l : List Char} {c : Char} {t : List Char},
    dropLeadWs l = c :: t → pyIsSpace c = false := by
  intro l
  induction l with
  | nil =>
    intro c t h
    exact absurd h (by simp [dropLeadWs])
  | cons a l' ih =>
    intro c t h
    rw [dropLeadWs, List.dropWhile_cons] at h
    split at h
    · exact ih h
    · rename_i hn
      cases h
      simpa using hn

theorem pyStrip_head {l : List Char} {c : Char} {t : List Char}
    (h : pyStrip l = c :: t) : pyIsSpace c = false := by
  have hpre : c :: t <+: dropLeadWs l := by
    rw [← h]
    exact preOf_dropTrail (dropLeadWs l)
  rcases hpre with ⟨r, hr⟩
  exact dropLeadWs_head (l := l) hr.symm

theorem dropLead_cons_nonws {a : Char} {l : List Char} (ha : pyIsSpace a = false) :
    dropLeadWs (a :: l) = a :: l := by
  rw [dropLeadWs, List.dropWhile_cons, if_neg (by rw [ha]; simp)]

theorem dropTrail_concat_nonws {u : List Char} {b : Char} (hb : pyIsSpace b = false) :
    dropTrailWs (u ++ [b]) = u ++ [b] := by
  unfold dropTrailWs
  rw [List.reverse_append]
  show ((b :: u.reverse).dropWhile pyIsSpace).reverse = _
  rw [List.dropWhile_cons, if_neg (by rw [hb]; simp), List.reverse_cons, List.reverse_reverse]

theorem pyStrip_idem (l : List Char) : pyStrip (pyStrip l) = pyStrip l := by
  have h1 : dropLeadWs (pyStrip l) = pyStrip l := by
    rcases hc : pyStrip l with _ | ⟨c, t⟩
    · rfl
    · exact dropLead_cons_nonws (pyStrip_head hc)
  calc pyStrip (pyStrip l) = dropTrailWs (dropLeadWs (pyStrip l)) := rfl
    _ = dropTrailWs (pyStrip l) := by rw [h1]
    _ = dropTrailWs (dropTrailWs (dropLeadWs l)) := rfl
    _ = dropTrailWs (dropLeadWs l) := dropTrailWs_twice _
    _ = pyStrip l := rfl

theorem pyStrip_concat_fix {u : List Char} (hu : ∀ c t, u = c :: t → pyIsSpace c = false)
    {b : Char} (hb : pyIsSpace b = false) : pyStrip (u ++ [b]) = u ++ [b] := by
  have hlead : dropLeadWs (u ++ [b]) = u ++ [b] := by
    cases u with
    | nil => exact dropLead_cons_nonws hb
    | cons a t => exact dropLead_cons_nonws (hu a t rfl)
  calc pyStrip (u ++ [b]) = dropTrailWs (dropLeadWs (u ++ [b])) := rfl
    _ = dropTrailWs (u ++ [b]) := by rw [hlead]
    _ = u ++ [b] := dropTrail_concat_nonws hb

theorem dropTrail_append (a b : List Char) :
    dropTrailWs (a ++ b) = if dropTrailWs b = [] then dropTrailWs a else a ++ dropTrailWs b := by
  by_cases hb : dropTrailWs b = []
  · rw [if_pos hb]
    have hb2 : (b.reverse.dropWhile pyIsSpace).isEmpty = true := by
      rw [List.isEmpty_iff]
      have hr := congrArg List.reverse hb
      unfold dropTrailWs at hr
      rwa [List.reverse_reverse] at hr
    unfold dropTrailWs
    rw [List.reverse_append, List.dropWhile_append, if_pos hb2]
  · rw [if_neg hb]
    have hb2 : (b.reverse.dropWhile pyIsSpace).isEmpty = false := by
      rw [List.isEmpty_eq_false]
      intro hc
      apply hb
      unfold dropTrailWs
      rw [hc]
      rfl
    unfold dropTrailWs
    rw [List.reverse_append, List.dropWhile_append, if_neg (by rw [hb2]; simp),
        List.reverse_append, List.reverse_reverse]

/-! The case maps commute with stripping. -/

theorem dropLead_map_upper (l : List Char) :
    dropLeadWs (upperL l) = upperL (dropLeadWs l) := by
  have hfun : (pyIsSpace ∘ pyToUpper) = pyIsSpace := funext fun c => pyIsSpace_upper c
  unfold dropLeadWs upperL
  rw [List.dropWhile_map, hfun]

theorem dropLead_map_lower (l : List Char) :
    dropLeadWs (lowerL l) = lowerL (dropLeadWs l) := by
  have hfun : (pyIsSpace ∘ pyToLower) = pyIsSpace := funext fun c => pyIsSpace_lower c
  unfold dropLeadWs lowerL
  rw [List.dropWhile_map, hfun]

theorem dropTrail_map_upper (l : List Char) :
    dropTrailWs (upperL l) = upperL (dropTrailWs l) := by
  have hfun : (pyIsSpace ∘ pyToUpper) = pyIsSpace := funext fun c => pyIsSpace_upper c
  unfold dropTrailWs upperL
  rw [← List.map_reverse, List.dropWhile_map, hfun, ← List.map_reverse]

theorem dropTrail_map_lower (l : List Char) :
    dropTrailWs (lowerL l) = lowerL (dropTrailWs l) := by
  have hfun : (pyIsSpace ∘ pyToLower) = pyIsSpace := funext fun c => pyIsSpace_lower c
  unfold dropTrailWs lowerL
  rw [← List.map_reverse, List.dropWhile_map, hfun, ← List.map_reverse]

theorem pyStrip_map_upper (l : List Char) : pyStrip (upperL l) = upperL (pyStrip l) := by
  calc pyStrip (upperL l) = dropTrailWs (dropLeadWs (upperL l)) := rfl
    _ = dropTrailWs (upperL (dropLeadWs l)) := by rw [dropLead_map_upper]
    _ = upperL (dropTrailWs (dropLeadWs l)) := dropTrail_map_upper _
    _ = upperL (pyStrip l) := rfl

theorem pyStrip_map_lower (l : List Char) : pyStrip (lowerL l) = lowerL (pyStrip l) := by
  calc pyStrip (lowerL l) = dropTrailWs (dropLeadWs (lowerL l)) := rfl
    _ = dropTrailWs (lowerL (dropLeadWs l)) := by rw [dropLead_map_lower]
    _ = lowerL (dropTrailWs (dropLeadWs l)) := dropTrail_map_lower _
    _ = lowerL (pyStrip l) := rfl

/-! Infix and prefix transfer lemmas. -/

theorem mapInfixOf (f : Char → Char) {a b : List Char} (h : a <:+: b) :
    a.map f <:+: b.map f := by
  rcases h with ⟨s, t, rfl⟩
  exact ⟨s.map f, t.map f, by simp⟩

theorem lowerL_infixOf {a b : List Char} (h : a <:+: b) : lowerL a <:+: lowerL b :=
  mapInfixOf pyToLower h

theorem upperL_infixOf {a b : List Char} (h : a <:+: b) : upperL a <:+: upperL b :=
  mapInfixOf pyToUpper h

theorem not_infixOf_concat {pat u : List Char} {c : Char} (h : ¬ pat <:+: u)
    (hne : pat ≠ []) (hlast : pat.getLast? ≠ some c) : ¬ pat <:+: u ++ [c] := by
  rintro ⟨a, b, hab⟩
  rcases List.eq_nil_or_concat b with rfl | ⟨b2, c2, rfl⟩
  · rcases List.eq_nil_or_concat pat with rfl | ⟨p2, x, rfl⟩
    · exact hne rfl
    · rw [List.append_nil, List.concat_eq_append, ← List.append_assoc] at hab
      rcases List.append_inj' hab (by rfl) with ⟨_, hx⟩
      apply hlast
      rw [List.concat_eq_append, List.getLast?_concat]
      rw [List.cons.injEq] at hx
      rw [hx.1]
  · rw [List.concat_eq_append, ← List.append_assoc] at hab
    rcases List.append_inj' hab (by rfl) with ⟨hu2, _⟩
    exact h ⟨a, b2, hu2⟩

theorem pre_take {p l : List Char} {n : Nat} (h : p <+: l) (hn : p.length ≤ n) :
    p <+: l.take n := by
  rcases h with ⟨t, rfl⟩
  rw [List.take_append_eq_append_take, List.take_of_length_le hn]
  exact ⟨t.take (n - p.length), rfl⟩

theorem take_pre_of_pre_append {m pre rest : List Char} (h : m <+: pre ++ rest) :
    m.take pre.length <+: pre := by
  rcases h with ⟨t, ht⟩
  have htake := congrArg (List.take pre.length) ht
  rw [List.take_left, List.take_append_eq_append_take] at htake
  exact ⟨t.take (pre.length - m.length), htake⟩

/-! Facts about the concrete marker list. -/

theorem marker_ne_nil : ∀ m ∈ markerList, m ≠ [] := by decide

theorem marker_last_ne_semi : ∀ m ∈ markerList, m.getLast? ≠ some ';' := by decide

theorem marker_not_in_select : ∀ m ∈ markerList, findSub (strL ("select")) m = none := by decide

theorem marker_mismatch_check : ∀ m ∈ markerList, ∀ i ∈ List.range 7,
    ((m.take ((strL ("select ")).drop i).length).isPrefixOf ((strL ("select ")).drop i)) = false := by
  decide

/-- No marker can occur (case-insensitively) within the first seven
characters of a text whose lower-casing starts with `select `. -/
theorem marker_pos {u m : List Char} (hm : m ∈ markerList) {j : Nat}
    (hu : strL ("select ") <+: lowerL u) (hj : findSub (lowerL u) m = some j) : 7 ≤ j := by
  by_contra hlt
  push_neg at hlt
  have hocc : m <+: (lowerL u).drop j := findSub_some_pre hj
  rcases hu with ⟨rest, hrest⟩
  rw [← hrest, List.drop_append_eq_append_drop] at hocc
  have hover := take_pre_of_pre_append hocc
  have hchk := marker_mismatch_check m hm j (List.mem_range.mpr hlt)
  exact absurd (isPrefixOf_iff.mpr hover) (by rw [hchk]; simp)

/-! Behavior of a single marker step. -/

theorem stepMarker_noop {m v : List Char} (h : findSub (lowerL v) m = none) :
    stepMarker m v = v := by
  unfold stepMarker
  rw [h]

theorem stepMarker_some {m v : List Char} {i : Nat} (h : findSub (lowerL v) m = some i) :
    stepMarker m v = pyStrip (v.take i) := by
  unfold stepMarker
  rw [h]

theorem stepMarker_infixOf (m v : List Char) : stepMarker m v <:+: v := by
  rcases h : findSub (lowerL v) m with _ | i
  · rw [stepMarker_noop h]
  · rw [stepMarker_some h]
    exact List.IsInfix.trans (infixOf_pyStrip _) (infixOf_of_pre (preOf_take i v))

theorem stepMarker_free_self {m v : List Char} (hne : m ≠ []) :
    ¬ m <:+: lowerL (stepMarker m v) := by
  rcases h : findSub (lowerL v) m with _ | i
  · rw [stepMarker_noop h]
    exact findSub_eq_none.mp h
  · rw [stepMarker_some h]
    intro hinf
    have h2 : m <:+: lowerL (v.take i) :=
      List.IsInfix.trans hinf (lowerL_infixOf (infixOf_pyStrip _))
    have h3 : m <:+: (lowerL v).take i := by
      rwa [show lowerL (v.take i) = (lowerL v).take i from List.map_take pyToLower v i] at h2
    rcases infixOf_iff_drop.mp h3 with ⟨j, hj⟩
    by_cases hji : j < i
    · have h4 : m <+: (lowerL v).drop j := by
        rw [List.drop_take] at hj
        exact List.IsPrefix.trans hj (preOf_take _ _)
      exact findSub_some_min h j hji h4
    · have h5 : ((lowerL v).take i).drop j = [] := by
        apply List.drop_eq_nil_of_le
        calc ((lowerL v).take i).length ≤ i := by
              rw [List.length_take]
              exact Nat.min_le_left i _
          _ ≤ j := Nat.le_of_not_lt hji
      rw [h5] at hj
      exact hne (List.prefix_nil.mp hj)

/-! Lower-case prefixes of `select ` survive the marker loop. -/

theorem lower_sel_decomp {v : List Char} (h : strL ("select ") <+: lowerL v) :
    ∃ w7 r, v = w7 ++ r ∧ lowerL w7 = strL ("select ") := by
  refine ⟨v.take 7, v.drop 7, (List.take_append_drop 7 v).symm, ?_⟩
  rcases h with ⟨t, ht⟩
  have h1 : lowerL (v.take 7) = (lowerL v).take 7 := List.map_take pyToLower v 7
  have h7 : (7 : Nat) = (strL ("select ")).length := rfl
  rw [h1, ← ht, h7, List.take_left]

theorem lower_sel7_upper {w : List Char} (h : lowerL w = strL ("select ")) :
    upperL w = strL ("SELECT ") := by
  have hsel : strL ("select ") = ['s','e','l','e','c','t',' '] := rfl
  have hSEL : strL ("SELECT ") = ['S','E','L','E','C','T',' '] := rfl
  rw [hsel] at h
  rw [hSEL]
  rcases w with _|⟨c0,_|⟨c1,_|⟨c2,_|⟨c3,_|⟨c4,_|⟨c5,_|⟨c6,t⟩⟩⟩⟩⟩⟩⟩ <;>
    simp [lowerL, upperL] at h ⊢
  obtain ⟨h0, h1, h2, h3, h4, h5, h6, ht⟩ := h
  exact ⟨(charCorr c0).1.mp h0, (charCorr c1).2.1.mp h1, (charCorr c2).2.2.1.mp h2,
    (charCorr c3).2.1.mp h3, (charCorr c4).2.2.2.1.mp h4,
    (charCorr c5).2.2.2.2.1.mp h5, (charCorr c6).2.2.2.2.2.mp h6, ht⟩

theorem lower_sel6_upper {w : List Char} (h : lowerL w = strL ("select")) :
    upperL w = strL ("SELECT") := by
  have hsel : strL ("select") = ['s','e','l','e','c','t'] := rfl
  have hSEL : strL ("SELECT") = ['S','E','L','E','C','T'] := rfl
  rw [hsel] at h
  rw [hSEL]
  rcases w with _|⟨c0,_|⟨c1,_|⟨c2,_|⟨c3,_|⟨c4,_|⟨c5,t⟩⟩⟩⟩⟩⟩ <;>
    simp [lowerL, upperL] at h ⊢
  obtain ⟨h0, h1, h2, h3, h4, h5, ht⟩ := h
  exact ⟨(charCorr c0).1.mp h0, (charCorr c1).2.1.mp h1, (charCorr c2).2.2.1.mp h2,
    (charCorr c3).2.1.mp h3, (charCorr c4).2.2.2.1.mp h4,
    (charCorr c5).2.2.2.2.1.mp h5, ht⟩

theorem dropTrail_single_ws {c : Char} (hc : pyIsSpace c = true) : dropTrailWs [c] = [] := by
  unfold dropTrailWs
  rw [show [c].reverse = [c] from rfl, List.dropWhile_cons, if_pos hc]
  rfl

/-- Stripping preserves a leading (case-insensitive) `select `: the result
either still starts with `select ` or is exactly a casing of `select`. -/
theorem strip_keeps_sel {w : List Char} (h : strL ("select ") <+: lowerL w) :
    lowerL (pyStrip w) = strL ("select") ∨ strL ("select ") <+: lowerL (pyStrip w) := by
  rcases lower_sel_decomp h with ⟨w7, r, hw, h7⟩
  subst hw
  have hsel : strL ("select ") = 's' :: strL ("elect ") := rfl
  rcases w7 with _ | ⟨c0, wt⟩
  · rw [hsel] at h7
    exact absurd h7 (by simp [lowerL])
  · have h0 : pyToLower c0 = 's' := by
      have hh := congrArg (fun l => l.head?) h7
      rw [hsel] at hh
      simpa [lowerL] using hh
    have hhead : pyIsSpace c0 = false := by
      rw [← pyIsSpace_lower c0, h0]
      decide
    have hps : pyStrip ((c0 :: wt) ++ r) = dropTrailWs ((c0 :: wt) ++ r) := by
      unfold pyStrip
      rw [show dropLeadWs ((c0 :: wt) ++ r) = (c0 :: wt) ++ r from dropLead_cons_nonws hhead]
    rw [hps, dropTrail_append (c0 :: wt) r]
    by_cases hr : dropTrailWs r = []
    · rw [if_pos hr]
      left
      rcases List.eq_nil_or_concat (c0 :: wt) with hnil | ⟨w6, c7, hw6⟩
      · exact absurd hnil (by simp)
      · rw [List.concat_eq_append] at hw6
        rw [hw6] at h7 ⊢
        have e1 : lowerL (w6 ++ [c7]) = lowerL w6 ++ [pyToLower c7] := by simp [lowerL]
        have e2 : strL ("select ") = strL ("select") ++ [' '] := rfl
        rw [e1, e2] at h7
        rcases List.append_inj' h7 (by rfl) with ⟨h6, hc7⟩
        have hc7l : pyToLower c7 = ' ' := by
          rw [List.cons.injEq] at hc7
          exact hc7.1
        have hws7 : pyIsSpace c7 = true := by
          rw [← pyIsSpace_lower c7, hc7l]
          decide
        rw [dropTrail_append w6 [c7], if_pos (dropTrail_single_ws hws7)]
        rcases List.eq_nil_or_concat w6 with rfl | ⟨w5, c6, hw5⟩
        · exact absurd h6 (by simp [lowerL, show strL ("select") = 's' :: strL ("elect") from rfl])
        · rw [List.concat_eq_append] at hw5
          rw [hw5] at h6 ⊢
          have e3 : lowerL (w5 ++ [c6]) = lowerL w5 ++ [pyToLower c6] := by simp [lowerL]
          have e4 : strL ("select") = strL ("selec") ++ ['t'] := rfl
          rw [e3, e4] at h6
          rcases List.append_inj' h6 (by rfl) with ⟨h5, hc6⟩
          have hc6l : pyToLower c6 = 't' := by
            rw [List.cons.injEq] at hc6
            exact hc6.1
          have hws6 : pyIsSpace c6 = false := by
            rw [← pyIsSpace_lower c6, hc6l]
            decide
          rw [dropTrail_concat_nonws hws6, e3, h5, hc6l, ← e4]
    · rw [if_neg hr]
      right
      have e5 : lowerL ((c0 :: wt) ++ dropTrailWs r) =
          lowerL (c0 :: wt) ++ lowerL (dropTrailWs r) := by simp [lowerL]
      rw [e5, h7]
      exact ⟨lowerL (dropTrailWs r), rfl⟩

/-! The marker loop as a whole. -/

theorem applyMarkers_noop : ∀ (ms : List (List Char)) (v : List Char),
    (∀ m ∈ ms, findSub (lowerL v) m = none) → applyMarkers ms v = v := by
  intro ms
  induction ms with
  | nil => intro v _; rfl
  | cons m ms ih =>
    intro v h
    show applyMarkers ms (stepMarker m v) = v
    rw [stepMarker_noop (h m (by simp))]
    exact ih v (fun x hx => h x (by simp [hx]))

theorem applyMarkers_master : ∀ (ms : List (List Char)) (v : List Char),
    (∀ m ∈ ms, m ∈ markerList) →
    (lowerL v = strL ("select") ∨ strL ("select ") <+: lowerL v) →
    ((lowerL (applyMarkers ms v) = strL ("select") ∨
        strL ("select ") <+: lowerL (applyMarkers ms v)) ∧
     (∀ m ∈ ms, ¬ m <:+: lowerL (applyMarkers ms v)) ∧
     applyMarkers ms v <:+: v) := by
  intro ms
  induction ms with
  | nil =>
    intro v _ hinv
    exact ⟨hinv, by simp, List.infix_rfl⟩
  | cons m ms ih =>
    intro v hsub hinv
    have hm : m ∈ markerList := hsub m (by simp)
    have hmne : m ≠ [] := marker_ne_nil m hm
    have hstep_inv : lowerL (stepMarker m v) = strL ("select") ∨
        strL ("select ") <+: lowerL (stepMarker m v) := by
      rcases hinv with h6 | h7
      · rw [stepMarker_noop (by rw [h6]; exact marker_not_in_select m hm)]
        exact Or.inl h6
      · rcases hf : findSub (lowerL v) m with _ | i
        · rw [stepMarker_noop hf]
          exact Or.inr h7
        · have hi7 : 7 ≤ i := marker_pos hm h7 hf
          rw [stepMarker_some hf]
          apply strip_keeps_sel
          have e1 : lowerL (v.take i) = (lowerL v).take i := List.map_take pyToLower v i
          rw [e1]
          exact pre_take h7 (by rw [show (strL ("select ")).length = 7 from rfl]; exact hi7)
    have hres := ih (stepMarker m v) (fun x hx => hsub x (by simp [hx])) hstep_inv
    refine ⟨hres.1, ?_, List.IsInfix.trans hres.2.2 (stepMarker_infixOf m v)⟩
    intro m2 hm2
    rcases List.mem_cons.mp hm2 with rfl | hm2t
    · intro hc
      exact stepMarker_free_self hmne
        (List.IsInfix.trans hc (lowerL_infixOf hres.2.2))
    · exact hres.2.1 m2 hm2t

theorem upper_sel_decomp {v : List Char} (h : strL ("SELECT ") <+: upperL v) :
    ∃ w7 r, v = w7 ++ r ∧ upperL w7 = strL ("SELECT ") := by
  refine ⟨v.take 7, v.drop 7, (List.take_append_drop 7 v).symm, ?_⟩
  rcases h with ⟨t, ht⟩
  have h1 : upperL (v.take 7) = (upperL v).take 7 := List.map_take pyToUpper v 7
  have h7 : (7 : Nat) = (strL ("SELECT ")).length := rfl
  rw [h1, ← ht, h7, List.take_left]

theorem upper_sel7_lower {w : List Char} (h : upperL w = strL ("SELECT ")) :
    lowerL w = strL ("select ") := by
  have hsel : strL ("select ") = ['s','e','l','e','c','t',' '] := rfl
  have hSEL : strL ("SELECT ") = ['S','E','L','E','C','T',' '] := rfl
  rw [hSEL] at h
  rw [hsel]
  rcases w with _|⟨c0,_|⟨c1,_|⟨c2,_|⟨c3,_|⟨c4,_|⟨c5,_|⟨c6,t⟩⟩⟩⟩⟩⟩⟩ <;>
    simp [lowerL, upperL] at h ⊢
  obtain ⟨h0, h1, h2, h3, h4, h5, h6, ht⟩ := h
  exact ⟨(charCorr c0).1.mpr h0, (charCorr c1).2.1.mpr h1, (charCorr c2).2.2.1.mpr h2,
    (charCorr c3).2.1.mpr h3, (charCorr c4).2.2.2.1.mpr h4,
    (charCorr c5).2.2.2.2.1.mpr h5, (charCorr c6).2.2.2.2.2.mpr h6, ht⟩

theorem lower_pre_of_upper_pre {v : List Char} (h : strL ("SELECT ") <+: upperL v) :
    strL ("select ") <+: lowerL v := by
  rcases upper_sel_decomp h with ⟨w7, r, rfl, h7⟩
  have e1 : lowerL (w7 ++ r) = lowerL w7 ++ lowerL r := by simp [lowerL]
  rw [e1, upper_sel7_lower h7]
  exact ⟨lowerL r, rfl⟩

theorem upper_pre_of_lower_pre {v : List Char} (h : strL ("select ") <+: lowerL v) :
    strL ("SELECT ") <+: upperL v := by
  rcases lower_sel_decomp h with ⟨w7, r, rfl, h7⟩
  have e1 : upperL (w7 ++ r) = upperL w7 ++ upperL r := by simp [upperL]
  rw [e1, lower_sel7_upper h7]
  exact ⟨upperL r, rfl⟩

/-- A string whose lower-casing is exactly `select` is already stripped. -/
theorem pyStrip_fix_of_lower_sel6 {v : List Char} (h : lowerL v = strL ("select")) :
    pyStrip v = v := by
  rcases v with _ | ⟨c0, vt⟩
  · rfl
  · have h0 : pyToLower c0 = 's' := by
      have hh := congrArg (fun l => l.head?) h
      rw [show strL ("select") = 's' :: strL ("elect") from rfl] at hh
      simpa [lowerL] using hh
    have hhead : pyIsSpace c0 = false := by
      rw [← pyIsSpace_lower c0, h0]
      decide
    rcases List.eq_nil_or_concat (c0 :: vt) with hnil | ⟨u, b, hub⟩
    · exact absurd hnil (by simp)
    · rw [List.concat_eq_append] at hub
      have hu6 : lowerL (u ++ [b]) = strL ("select") := by rw [← hub]; exact h
      have e3 : lowerL (u ++ [b]) = lowerL u ++ [pyToLower b] := by simp [lowerL]
      have e4 : strL ("select") = strL ("selec") ++ ['t'] := rfl
      rw [e3, e4] at hu6
      rcases List.append_inj' hu6 (by rfl) with ⟨_, hb⟩
      have hbl : pyToLower b = 't' := by
        rw [List.cons.injEq] at hb
        exact hb.1
      have hbws : pyIsSpace b = false := by
        rw [← pyIsSpace_lower b, hbl]
        decide
      rw [hub]
      refine pyStrip_concat_fix ?_ hbws
      intro c t hct
      rw [hct] at hub
      rw [show (c :: t) ++ [b] = c :: (t ++ [b]) from rfl] at hub
      injection hub with hcc _
      rw [← hcc]
      exact hhead

/-- Half of claim C7's amendment: on any successful output of the cleanup,
a second pass only strips surrounding whitespace. -/
theorem normalize_second_pass {q4 y : List Char}
    (hy : y = ensureSemi (extractSelect q4))
    (_hne : y.isEmpty = false)
    (hsel : (strL ("SELECT")).isPrefixOf (pyStrip (upperL y)) = true) :
    normalizeCompletion y = Except.ok (pyStrip y) := by
  have hsemi : strL (";") = [';'] := rfl
  have hzc : y = pyStrip (extractSelect q4) ++ [';'] ∨
      (y = extractSelect q4 ∧ [';'] <:+ pyStrip (extractSelect q4)) := by
    by_cases hc : ((strL ("SELECT")).isPrefixOf (pyStrip (upperL (extractSelect q4))) &&
        !((strL (";")).isSuffixOf (pyStrip (extractSelect q4)))) = true
    · left
      rw [hy]
      unfold ensureSemi
      rw [if_pos hc, hsemi]
    · have hyq : y = extractSelect q4 := by
        rw [hy]
        unfold ensureSemi
        rw [if_neg hc]
      refine Or.inr ⟨hyq, ?_⟩
      have hA : (strL ("SELECT")).isPrefixOf (pyStrip (upperL (extractSelect q4))) = true := by
        rw [← hyq]
        exact hsel
      rcases hB : (strL (";")).isSuffixOf (pyStrip (extractSelect q4)) with _ | _
      · exact absurd (by rw [hA, hB]; rfl) hc
      · rw [← hsemi]
        exact isSuffixOf_iff.mp hB
  have hzw : pyStrip y = pyStrip (extractSelect q4) ++ [';'] ∨
      pyStrip y = pyStrip (extractSelect q4) := by
    rcases hzc with h | ⟨h, _⟩
    · left
      rw [h]
      exact pyStrip_concat_fix (fun c t hct => pyStrip_head hct) (by decide)
    · right
      rw [h]
  have hzsemi : ∃ v, pyStrip y = v ++ [';'] := by
    rcases hzc with h | ⟨h, hsuf⟩
    · exact ⟨pyStrip (extractSelect q4), by
        rw [h]
        exact pyStrip_concat_fix (fun c t hct => pyStrip_head hct) (by decide)⟩
    · rcases hsuf with ⟨a, ha⟩
      exact ⟨a, by rw [h]; exact ha.symm⟩
  have hselZ : strL ("SELECT") <+: upperL (pyStrip y) := by
    rw [← pyStrip_map_upper]
    exact isPrefixOf_iff.mp hsel
  rcases hzshape : pyStrip y with _ | ⟨c0, z1⟩
  · rw [hzshape] at hselZ
    exact absurd hselZ
      (by simp [upperL, List.prefix_nil, show strL ("SELECT") = 'S' :: strL ("ELECT") from rfl])
  · have hc0 : pyToUpper c0 = 'S' := by
      rcases hselZ with ⟨t, ht⟩
      rw [hzshape, show upperL (c0 :: z1) = pyToUpper c0 :: upperL z1 from rfl] at ht
      rw [show strL ("SELECT") = 'S' :: strL ("ELECT") from rfl,
          show ('S' :: strL ("ELECT")) ++ t = 'S' :: (strL ("ELECT") ++ t) from rfl] at ht
      injection ht with h1 _
      exact h1.symm
    have hzem : (pyStrip y).isEmpty = false := by rw [hzshape]; rfl
    have hfence : stripFences (pyStrip y) = pyStrip y := by
      have hnp : ¬ ((strL ("```sql")).isPrefixOf (pyStrip y) = true) := by
        intro hcc
        rcases isPrefixOf_iff.mp hcc with ⟨t, ht⟩
        rw [hzshape, show strL ("```sql") ++ t =
          Char.ofNat 96 :: (strL ("``sql") ++ t) from rfl] at ht
        injection ht with h1 _
        rw [← h1] at hc0
        exact absurd hc0 (by decide)
      have hns : ¬ ((strL ("```")).isSuffixOf (pyStrip y) = true) := by
        intro hcc
        rcases isSuffixOf_iff.mp hcc with ⟨a, ha⟩
        rcases hzsemi with ⟨v, hv⟩
        rw [hv] at ha
        rw [show a ++ strL ("```") =
            (a ++ [Char.ofNat 96, Char.ofNat 96]) ++ [Char.ofNat 96] from by
          rw [show strL ("```") =
            [Char.ofNat 96, Char.ofNat 96] ++ [Char.ofNat 96] from rfl, List.append_assoc]] at ha
        rcases List.append_inj' ha (by rfl) with ⟨_, hx⟩
        exact absurd hx (by decide)
      unfold stripFences
      rw [if_neg hnp, if_neg hns]
    have hquote : stripQuotes (pyStrip y) = pyStrip y := by
      have h1 : ¬ (([quoteChar].isPrefixOf (pyStrip y) &&
          [quoteChar].isSuffixOf (pyStrip y)) = true) := by
        intro hcc
        rw [Bool.and_eq_true] at hcc
        rcases isPrefixOf_iff.mp hcc.1 with ⟨t, ht⟩
        rw [hzshape, show [quoteChar] ++ t = quoteChar :: t from rfl] at ht
        injection ht with hh _
        rw [← hh] at hc0
        exact absurd hc0 (by decide)
      have h2 : ¬ (([Char.ofNat 34].isPrefixOf (pyStrip y) &&
          [Char.ofNat 34].isSuffixOf (pyStrip y)) = true) := by
        intro hcc
        rw [Bool.and_eq_true] at hcc
        rcases isPrefixOf_iff.mp hcc.1 with ⟨t, ht⟩
        rw [hzshape, show [Char.ofNat 34] ++ t = Char.ofNat 34 :: t from rfl] at ht
        injection ht with hh _
        rw [← hh] at hc0
        exact absurd hc0 (by decide)
      unfold stripQuotes
      rw [if_neg h1, if_neg h2]
    have hpc : preClean y = pyStrip y := by
      unfold preClean
      rw [hfence, hquote]
    have hext : extractSelect (pyStrip y) = pyStrip y := by
      rcases hES : findSub (upperL q4) (strL ("SELECT ")) with _ | si
      · have hq5 : extractSelect q4 = q4 := by
          unfold extractSelect
          rw [hES]
        have hnoQ4 : ¬ strL ("SELECT ") <:+: upperL q4 := findSub_eq_none.mp hES
        have hnoW : ¬ strL ("SELECT ") <:+: upperL (pyStrip (extractSelect q4)) := by
          rw [hq5]
          intro hcc
          exact hnoQ4 (List.IsInfix.trans hcc (upperL_infixOf (infixOf_pyStrip q4)))
        have hnoZ : ¬ strL ("SELECT ") <:+: upperL (pyStrip y) := by
          rcases hzw with h | h
          · rw [h, show upperL (pyStrip (extractSelect q4) ++ [';']) =
                upperL (pyStrip (extractSelect q4)) ++ [';'] from by
              have e : pyToUpper ';' = ';' := by decide
              simp [upperL, e]]
            exact not_infixOf_concat hnoW (by decide) (by decide)
          · rw [h]
            exact hnoW
        unfold extractSelect
        rw [findSub_none_of_not_infixOf hnoZ]
      · rcases hES2 : findSub (lowerL q4) (strL ("select ")) with _ | ai
        · exfalso
          have hpre := findSub_some_pre hES
          rw [show (upperL q4).drop si = upperL (q4.drop si) from
            (List.map_drop pyToUpper q4 si).symm] at hpre
          have hlow := lower_pre_of_upper_pre hpre
          rw [show lowerL (q4.drop si) = (lowerL q4).drop si from
            List.map_drop pyToLower q4 si] at hlow
          exact (findSub_eq_none.mp hES2) (infixOf_iff_drop.mpr ⟨si, hlow⟩)
        · have hq5 : extractSelect q4 = applyMarkers markerList (q4.drop ai) := by
            unfold extractSelect
            rw [hES, hES2]
          have hseldrop : strL ("select ") <+: lowerL (q4.drop ai) := by
            have hp2 := findSub_some_pre hES2
            rwa [show (lowerL q4).drop ai = lowerL (q4.drop ai) from
              (List.map_drop pyToLower q4 ai).symm] at hp2
          have hAM := applyMarkers_master markerList (q4.drop ai)
            (fun m hm => hm) (Or.inr hseldrop)
          have hINVw : lowerL (pyStrip (extractSelect q4)) = strL ("select") ∨
              strL ("select ") <+: lowerL (pyStrip (extractSelect q4)) := by
            rw [hq5]
            rcases hAM.1 with h6 | h7
            · rw [pyStrip_fix_of_lower_sel6 h6]
              exact Or.inl h6
            · exact strip_keeps_sel h7
          have hfreew : ∀ m ∈ markerList, ¬ m <:+: lowerL (pyStrip (extractSelect q4)) := by
            rw [hq5]
            intro m hm hcc
            exact hAM.2.1 m hm (List.IsInfix.trans hcc (lowerL_infixOf (infixOf_pyStrip _)))
          rcases hINVw with h6 | h7
          · have hz6 : pyStrip y = pyStrip (extractSelect q4) ++ [';'] := by
              rcases hzw with h | h
              · exact h
              · exfalso
                rcases hzsemi with ⟨v, hv⟩
                rw [h] at hv
                rw [hv] at h6
                rw [show lowerL (v ++ [';']) = lowerL v ++ [';'] from by
                  have e : pyToLower ';' = ';' := by decide
                  simp [lowerL, e]] at h6
                rw [show strL ("select") = strL ("selec") ++ ['t'] from rfl] at h6
                rcases List.append_inj' h6 (by rfl) with ⟨_, hx⟩
                exact absurd hx (by decide)
            have hupz : upperL (pyStrip y) = strL ("SELECT") ++ [';'] := by
              rw [hz6]
              rw [show upperL (pyStrip (extractSelect q4) ++ [';']) =
                  upperL (pyStrip (extractSelect q4)) ++ [';'] from by
                have e : pyToUpper ';' = ';' := by decide
                simp [upperL, e]]
              rw [lower_sel6_upper h6]
            have hnoZ : findSub (upperL (pyStrip y)) (strL ("SELECT ")) = none := by
              rw [hupz]
              decide
            unfold extractSelect
            rw [hnoZ]
          · have hlz : strL ("select ") <+: lowerL (pyStrip y) := by
              rcases hzw with h | h
              · rw [h, show lowerL (pyStrip (extractSelect q4) ++ [';']) =
                    lowerL (pyStrip (extractSelect q4)) ++ [';'] from by
                  have e : pyToLower ';' = ';' := by decide
                  simp [lowerL, e]]
                exact List.IsPrefix.trans h7 (List.prefix_append _ _)
              · rw [h]
                exact h7
            have hupp : strL ("SELECT ") <+: upperL (pyStrip y) := upper_pre_of_lower_pre hlz
            have hfreez : ∀ m ∈ markerList, findSub (lowerL (pyStrip y)) m = none := by
              intro m hm
              apply findSub_none_of_not_infixOf
              rcases hzw with h | h
              · rw [h, show lowerL (pyStrip (extractSelect q4) ++ [';']) =
                    lowerL (pyStrip (extractSelect q4)) ++ [';'] from by
                  have e : pyToLower ';' = ';' := by decide
                  simp [lowerL, e]]
                exact not_infixOf_concat (hfreew m hm) (marker_ne_nil m hm)
                  (marker_last_ne_semi m hm)
              · rw [h]
                exact hfreew m hm
            unfold extractSelect
            rw [findSub_of_pre hupp, findSub_of_pre hlz]
            show applyMarkers markerList ((pyStrip y).drop 0) = pyStrip y
            rw [List.drop_zero]
            exact applyMarkers_noop markerList (pyStrip y) hfreez
    have hA2 : (strL ("SELECT")).isPrefixOf (pyStrip (upperL (pyStrip y))) = true := by
      rw [pyStrip_map_upper, pyStrip_idem, ← pyStrip_map_upper]
      exact hsel
    have hB2 : (strL (";")).isSuffixOf (pyStrip (pyStrip y)) = true := by
      rw [pyStrip_idem]
      rcases hzsemi with ⟨v, hv⟩
      rw [hv, isSuffixOf_iff, hsemi]
      exact List.suffix_append v [';']
    have hensure : ensureSemi (pyStrip y) = pyStrip y := by
      have hcond : ¬ (((strL ("SELECT")).isPrefixOf (pyStrip (upperL (pyStrip y))) &&
          !((strL (";")).isSuffixOf (pyStrip (pyStrip y)))) = true) := by
        intro hcc
        rw [Bool.and_eq_true] at hcc
        have h2 := hcc.2
        rw [hB2] at h2
        exact absurd h2 (by decide)
      unfold ensureSemi
      rw [if_neg hcond]
    have hcondF : ¬ (((pyStrip y).isEmpty ||
        !((strL ("SELECT")).isPrefixOf (pyStrip (upperL (pyStrip y))))) = true) := by
      intro hcc
      rw [Bool.or_eq_true] at hcc
      rcases hcc with h | h
      · rw [hzem] at h
        exact absurd h (by decide)
      · rw [hA2] at h
        exact absurd h (by decide)
    unfold normalizeCompletion
    rw [hpc, hext, hensure, if_neg hcondF, hzshape]

/-- Counterexample for C7: `normalizeCompletion` is not idempotent — the
completion `' select;'` normalizes to `' select;'` (leading space kept),
and a second application trims it to `select;`. -/
theorem C7_cex :
    normalizeCompletion (strL ("\x27 select;\x27")) = Except.ok (strL (" select;")) ∧
    normalizeCompletion (strL (" select;")) = Except.ok (strL ("select;")) ∧
    strL (" select;") ≠ strL ("select;") := by decide

set_option maxHeartbeats 1000000 in
/-- C7 (amended): the cleanup is a no-op on already well-formed completions
such as `SELECT 1;`, and re-running it on any successful output only trims
surrounding whitespace: `normalize (normalize x) = trim (normalize x)`
whenever `normalize x` succeeds.  Idempotence as literally stated holds
exactly for outputs that carry no surrounding whitespace. -/
theorem C7_second_pass_trims_amended :
    (∀ x y : List Char, normalizeCompletion x = Except.ok y →
       normalizeCompletion y = Except.ok (pyStrip y)) ∧
    normalizeCompletion (strL ("SELECT 1;")) = Except.ok (strL ("SELECT 1;")) := by
  constructor
  · intro x y h
    simp only [normalizeCompletion] at h
    rcases hq : ((ensureSemi (extractSelect (preClean x))).isEmpty ||
        !((strL ("SELECT")).isPrefixOf
          (pyStrip (upperL (ensureSemi (extractSelect (preClean x))))))) with _ | _
    · rw [if_neg (by rw [hq]; exact Bool.false_ne_true)] at h
      have h2 : ensureSemi (extractSelect (preClean x)) = y := Except.ok.inj h
      have hor := Bool.or_eq_false_iff.mp hq
      have hem : (ensureSemi (extractSelect (preClean x))).isEmpty = false := hor.1
      have hA : (strL ("SELECT")).isPrefixOf
          (pyStrip (upperL (ensureSemi (extractSelect (preClean x))))) = true := by
        have hnn := hor.2
        rcases hq2 : (strL ("SELECT")).isPrefixOf
            (pyStrip (upperL (ensureSemi (extractSelect (preClean x))))) with _ | _
        · rw [hq2] at hnn
          exact absurd hnn (by decide)
        · rfl
      have hne2 : y.isEmpty = false := by rw [← h2]; exact hem
      have hA3 : (strL ("SELECT")).isPrefixOf (pyStrip (upperL y)) = true := by
        rw [← h2]
        exact hA
      exact normalize_second_pass h2.symm hne2 hA3
    · rw [if_pos hq] at h
      exact absurd h (fun hcc => Except.noConfusion hcc)
  · decide

/-- Witness for C7: the second-pass characterization applied at a concrete
successful normalization. -/
theorem C7_witness :
    normalizeCompletion (strL ("SELECT 1;")) =
      Except.ok (pyStrip (strL ("SELECT 1;"))) :=
  C7_second_pass_trims_amended.1 (strL ("SELECT 1;")) (strL ("SELECT 1;")) (by decide)

/-- When `note:` occurs in the retained text and no other marker occurs at
all, the marker loop truncates exactly at the first occurrence of `note:`
(and strips), regardless of SQL syntax around it. -/
theorem applyMarkers_note_truncates {q : List Char} {i : Nat}
    (hothers : ∀ m ∈ markerList, m ≠ strL ("note:") → findSub (lowerL q) m = none)
    (hnote : findSub (lowerL q) (strL ("note:")) = some i) :
    applyMarkers markerList q = pyStrip (q.take i) := by
  have h1 := hothers (strL ("this query will")) (by decide) (by decide)
  have h2 := hothers (strL ("the query above")) (by decide) (by decide)
  have h3 := hothers (strL ("explanation:")) (by decide) (by decide)
  have h4 := hothers (strL ("here is the sql")) (by decide) (by decide)
  have h6 := hothers (strL ("```")) (by decide) (by decide)
  have h6b : findSub (lowerL (pyStrip (q.take i))) (strL ("```")) = none := by
    apply findSub_none_of_not_infixOf
    intro hcc
    exact (findSub_eq_none.mp h6) (List.IsInfix.trans hcc (lowerL_infixOf
      (List.IsInfix.trans (infixOf_pyStrip _) (infixOf_of_pre (preOf_take i q)))))
  have s1 : applyMarkers markerList q =
      applyMarkers [strL ("the query above"), strL ("explanation:"), strL ("here is the sql"),
        strL ("note:"), strL ("```")] q := by
    show applyMarkers [strL ("the query above"), strL ("explanation:"), strL ("here is the sql"),
        strL ("note:"), strL ("```")] (stepMarker (strL ("this query will")) q) = _
    rw [stepMarker_noop h1]
  have s2 : applyMarkers [strL ("the query above"), strL ("explanation:"),
        strL ("here is the sql"), strL ("note:"), strL ("```")] q =
      applyMarkers [strL ("explanation:"), strL ("here is the sql"),
        strL ("note:"), strL ("```")] q := by
    show applyMarkers [strL ("explanation:"), strL ("here is the sql"),
        strL ("note:"), strL ("```")] (stepMarker (strL ("the query above")) q) = _
    rw [stepMarker_noop h2]
  have s3 : applyMarkers [strL ("explanation:"), strL ("here is the sql"),
        strL ("note:"), strL ("```")] q =
      applyMarkers [strL ("here is the sql"), strL ("note:"), strL ("```")] q := by
    show applyMarkers [strL ("here is the sql"), strL ("note:"), strL ("```")]
        (stepMarker (strL ("explanation:")) q) = _
    rw [stepMarker_noop h3]
  have s4 : applyMarkers [strL ("here is the sql"), strL ("note:"), strL ("```")] q =
      applyMarkers [strL ("note:"), strL ("```")] q := by
    show applyMarkers [strL ("note:"), strL ("```")]
        (stepMarker (strL ("here is the sql")) q) = _
    rw [stepMarker_noop h4]
  have s5 : applyMarkers [strL ("note:"), strL ("```")] q =
      applyMarkers [strL ("```")] (pyStrip (q.take i)) := by
    show applyMarkers [strL ("```")] (stepMarker (strL ("note:")) q) = _
    rw [stepMarker_some hnote]
  have s6 : applyMarkers [strL ("```")] (pyStrip (q.take i)) = pyStrip (q.take i) := by
    show applyMarkers [] (stepMarker (strL ("```")) (pyStrip (q.take i))) = _
    rw [stepMarker_noop h6b]
    rfl
  rw [s1, s2, s3, s4, s5, s6]

/-- C10: the trailing-chatter markers are matched as case-insensitive plain
substrings with no SQL-syntax awareness: when a marker (here `note:`)
occurs only inside a quoted SQL string literal, the retained SELECT text is
truncated at the marker's position, and the truncated prefix still passes
the final acceptance check and is returned as the candidate SQL. -/
theorem C10_marker_plain_substring_truncation :
    (∀ (q : List Char) (i : Nat),
       (∀ m ∈ markerList, m ≠ strL ("note:") → findSub (lowerL q) m = none) →
       findSub (lowerL q) (strL ("note:")) = some i →
       applyMarkers markerList q = pyStrip (q.take i)) ∧
    normalizeCompletion (strL ("SELECT * FROM t WHERE c = \x27note: x\x27")) =
      Except.ok (strL ("SELECT * FROM t WHERE c = \x27;")) := by
  constructor
  · intro q i h1 h2
    exact applyMarkers_note_truncates h1 h2
  · decide

/-- Witness for C10: the truncation lemma applied at the concrete literal
containing `note:` inside a quoted string. -/
theorem C10_witness :
    applyMarkers markerList (strL ("SELECT * FROM t WHERE c = \x27note: x\x27")) =
      pyStrip ((strL ("SELECT * FROM t WHERE c = \x27note: x\x27")).take 27) :=
  C10_marker_plain_substring_truncation.1
    (strL ("SELECT * FROM t WHERE c = \x27note: x\x27")) 27 (by decide) (by decide)
